import Mathlib

/-!
Enki viewer (src/viewer/Viewer.cpp): camera, resource cache and geometry

A shallow embedding of `ViewerWidget` and its helper classes.

* Scalars of C++ type `double` are an arbitrary ordered field `α`; the
  theorems about the camera and the wheels instantiate it with the real
  numbers and the executable checks with the rationals.  The C library
  entries `M_PI`, `cos` and `sin` are parameters of the definitions that use
  them.
* `QPoint` coordinates and wheel deltas are C++ `int`, embedded as `Int`.
* Heap objects created with `new` live in a list that only grows; the address
  of an object is its index in that list, and a null pointer is `none`.
-/

namespace Enki

set_option linter.unusedSectionVars false

/-! ## Data model -/

/-- Button of a Qt mouse event (`Qt::MouseButton`). -/
inductive MouseButton where
  | LeftButton
  | RightButton
  | MidButton
  | NoButton
  deriving DecidableEq, Repr

/-- Integer widget coordinates (`QPoint`). -/
structure QPoint where
  x : Int
  y : Int
  deriving DecidableEq, Repr

/-- The difference of two points (`QPoint::operator-`). -/
def QPoint.sub (a b : QPoint) : QPoint := ⟨a.x - b.x, a.y - b.y⟩

/-- Floating point pair (`QPointF`). -/
structure QPointF (α : Type) where
  x : α
  y : α
  deriving DecidableEq, Repr

/-- The value of `Qt::NoModifier`. -/
def NoModifier : Nat := 0x00000000

/-- The value of `Qt::ShiftModifier`. -/
def ShiftModifier : Nat := 0x02000000

/-- The value of `Qt::ControlModifier`. -/
def ControlModifier : Nat := 0x04000000

/-- Name of an OpenGL display list or texture (`GLuint`). -/
abbrev GLuint := Nat

/-- Address of a heap allocated `ViewerUserData` object. -/
abbrev Ptr := Nat

/-- Index of the E-puck model in `managedObjects` (`enum ManagedObjectTypes`). -/
def OBJECT_EPUCK_MODEL : Nat := 0

/-- Number of managed object slots (`enum ManagedObjectTypes`). -/
def MANAGED_OBJECT_COUNT : Nat := 1

/-- The member variables of `ViewerWidget` (the `world` pointer is passed
separately to the functions that read it). -/
structure ViewerWidget (α : Type) where
  mouseGrabbed : Bool
  mouseGrabPos : QPoint
  worldList : GLuint
  worldTexture : GLuint
  managedObjects : List (Option Ptr)
  yaw : α
  pitch : α
  pos : QPointF α
  altitude : α
  deriving DecidableEq, Repr

section Camera

variable {α : Type} [LinearOrderedField α]

/-- The macro `clamp(x, low, high)`. -/
def clamp (x low high : α) : α :=
  if x < low then low else (if x > high then high else x)

/-- The member initialisers of `ViewerWidget::ViewerWidget`, for a world of
width `w` and height `h`.  Members without an initialiser (`mouseGrabPos`,
`worldTexture`) take the value zero. -/
def ViewerWidget.ctor (M_PI : α) (w h : α) : ViewerWidget α :=
  { mouseGrabbed := false
    mouseGrabPos := ⟨0, 0⟩
    worldList := 0
    worldTexture := 0
    managedObjects := List.replicate MANAGED_OBJECT_COUNT none
    yaw := -M_PI / 2
    pitch := (3 * M_PI) / 8
    pos := ⟨-w * (1 / 2), -h * (1 / 5)⟩
    altitude := h * (1 / 2) }

/-- The function `ViewerWidget::mousePressEvent`. -/
def mousePressEvent (v : ViewerWidget α) (button : MouseButton) (pos : QPoint) :
    ViewerWidget α :=
  if button = MouseButton.RightButton then
    { v with mouseGrabbed := true, mouseGrabPos := pos }
  else v

/-- The function `ViewerWidget::mouseReleaseEvent`. -/
def mouseReleaseEvent (v : ViewerWidget α) (button : MouseButton) : ViewerWidget α :=
  if button = MouseButton.RightButton then { v with mouseGrabbed := false } else v

/-- The function `ViewerWidget::mouseMoveEvent`; the literals `0.5` and `0.01` are the
fractions `1/2` and `1/100`. -/
def mouseMoveEvent (M_PI : α) (cos sin : α → α) (v : ViewerWidget α) (pos : QPoint)
    (modifiers : Nat) : ViewerWidget α :=
  if v.mouseGrabbed then
    let diff : QPoint := QPoint.sub pos v.mouseGrabPos
    if modifiers &&& ShiftModifier ≠ 0 then
      { v with
        pos :=
          ⟨v.pos.x + ((1 / 2) * cos v.yaw * (diff.y : α) + (1 / 2) * sin v.yaw * (diff.x : α)),
            v.pos.y +
              ((1 / 2) * sin v.yaw * -(diff.y : α) + (1 / 2) * cos v.yaw * (diff.x : α))⟩
        mouseGrabPos := pos }
    else
      { v with
        yaw := v.yaw + (1 / 100) * (diff.x : α)
        pitch := clamp (v.pitch + (1 / 100) * (diff.y : α)) (-M_PI / 2) (M_PI / 2)
        mouseGrabPos := pos }
  else v

/-- The function `ViewerWidget::wheelEvent`. -/
def wheelEvent (v : ViewerWidget α) (delta : Int) (modifiers : Nat) : ViewerWidget α :=
  if modifiers &&& ShiftModifier ≠ 0 then
    { v with altitude := v.altitude + (delta : α) / 100 }
  else v

/-- An input event delivered by the host to the widget. -/
inductive InputEvent where
  | press (button : MouseButton) (pos : QPoint) (modifiers : Nat)
  | release (button : MouseButton) (pos : QPoint) (modifiers : Nat)
  | move (pos : QPoint) (modifiers : Nat)
  | wheel (delta : Int) (modifiers : Nat)
  deriving DecidableEq, Repr

/-- Dispatch of one input event to its handler. -/
def handleEvent (M_PI : α) (cos sin : α → α) (v : ViewerWidget α) :
    InputEvent → ViewerWidget α
  | InputEvent.press button pos _ => mousePressEvent v button pos
  | InputEvent.release button _ _ => mouseReleaseEvent v button
  | InputEvent.move pos modifiers => mouseMoveEvent M_PI cos sin v pos modifiers
  | InputEvent.wheel delta modifiers => wheelEvent v delta modifiers

/-- The widget after a finite sequence of input events, first event first. -/
def handleEvents (M_PI : α) (cos sin : α → α) (v : ViewerWidget α) :
    List InputEvent → ViewerWidget α
  | [] => v
  | e :: es => handleEvents M_PI cos sin (handleEvent M_PI cos sin v e) es

/-- The pointer displacements seen by successive move events at the positions
`ps`, when the grab position before the first of them is `g`. -/
def dragDeltas (g : QPoint) : List QPoint → List QPoint
  | [] => []
  | p :: ps => QPoint.sub p g :: dragDeltas p ps

/-- Move events with no modifier held, one per pointer position. -/
def dragEvents (ps : List QPoint) : List InputEvent :=
  ps.map (fun p => InputEvent.move p NoModifier)

/-- The event sequence `es` repeated `n` times. -/
def repeatEvents : Nat → List InputEvent → List InputEvent
  | 0, _ => []
  | n + 1, es => es ++ repeatEvents n es

end Camera

/-! ## OpenGL calls and geometry -/

/-- The OpenGL enumerants named in the source. -/
inductive GLenum where
  | GL_QUADS
  | GL_TRIANGLES
  | GL_TRIANGLE_FAN
  | GL_COMPILE
  | GL_TEXTURE_2D
  | GL_LIGHTING
  | GL_BLEND
  | GL_ZERO
  | GL_ONE
  | GL_SRC_COLOR
  | GL_SRC_ALPHA
  | GL_ONE_MINUS_SRC_ALPHA
  | GL_PROJECTION
  | GL_MODELVIEW
  | GL_LIGHT0
  | GL_POSITION
  deriving DecidableEq, Repr

/-- One call into OpenGL, GLU or the texture interface of `QGLWidget`, with
its arguments.  A run of the program is observed as the list of its calls. -/
inductive GLCall (α : Type) where
  | glClear
  | glMatrixMode (mode : GLenum)
  | glLoadIdentity
  | glFrustum (left right bottom top zNear zFar : α)
  | glRotated (angle x y z : α)
  | glTranslated (x y z : α)
  | glScaled (x y z : α)
  | glPushMatrix
  | glPopMatrix
  | glLightfv (light pname : GLenum) (x y z w : α)
  | glGenLists (range : Nat)
  | glNewList (list : GLuint) (mode : GLenum)
  | glEndList
  | glCallList (list : GLuint)
  | glDeleteLists (list : GLuint) (range : Nat)
  | bindTexture (resource : String)
  | deleteTexture (texture : GLuint)
  | glBindTexture (target : GLenum) (texture : GLuint)
  | glEnable (cap : GLenum)
  | glDisable (cap : GLenum)
  | glBlendFunc (sfactor dfactor : GLenum)
  | glNormal3d (x y z : α)
  | glColor3d (r g b : α)
  | glBegin (mode : GLenum)
  | glEnd
  | glTexCoord2d (s t : α)
  | glTexCoord2f (s t : α)
  | glVertex3d (x y z : α)
  | glVertex2f (x y : α)
  | gluNewQuadric
  | gluCylinder (base top height : α) (slices stackCount : Nat)
  | gluDisk (inner outer : α) (slices loops : Nat)
  | gluDeleteQuadric
  | genEPuckMesh (part : Nat) (list : GLuint)
  deriving DecidableEq, Repr

/-- A point or vector of the plane (`Enki::Point`, `Enki::Vector`). -/
structure Point (α : Type) where
  x : α
  y : α
  deriving DecidableEq, Repr

/-- A segment from `a` to `b` (`Enki::Segment`). -/
structure Segment (α : Type) where
  a : Point α
  b : Point α
  deriving DecidableEq, Repr

/-- The colour of an object; `r`, `g`, `b`, `a` are `components[0..3]`. -/
structure Color (α : Type) where
  r : α
  g : α
  b : α
  a : α
  deriving DecidableEq, Repr

/-- The dynamic type of an object, as far as the `dynamic_cast`s of the viewer
tell it apart, with the members that exist only in the derived class. -/
inductive DynamicType (α : Type) where
  | PhysicalObject
  | Robot
  | DifferentialWheeled (leftOdometry rightOdometry : α)
  | EPuck (leftOdometry rightOdometry : α)
  deriving DecidableEq, Repr

/-- The members of `Enki::PhysicalObject` read or written by the viewer.
`boundingSurface` and `userData` are pointers, null being `none`. -/
structure PhysicalObject (α : Type) where
  pos : Point α
  angle : α
  height : α
  r : α
  color : Color α
  boundingSurface : Option (List (Point α))
  userData : Option Ptr
  dynamicType : DynamicType α
  deriving DecidableEq, Repr

/-- Result of `dynamic_cast<EPuck*>(object)` being non-null. -/
def PhysicalObject.isEPuck {α : Type} (object : PhysicalObject α) : Bool :=
  match object.dynamicType with
  | DynamicType.EPuck _ _ => true
  | _ => false

/-- Result of `dynamic_cast<Robot*>(object)` being non-null. -/
def PhysicalObject.isRobot {α : Type} (object : PhysicalObject α) : Bool :=
  match object.dynamicType with
  | DynamicType.PhysicalObject => false
  | _ => true

/-- The members of `Enki::World` read by the viewer. -/
structure World (α : Type) where
  w : α
  h : α
  useWalls : Bool
  objects : List (PhysicalObject α)
  deriving DecidableEq, Repr

section Geometry

variable {α : Type} [Field α]

/-- The function `ViewerWidget::renderSegment`.  `unitary` stands for `Vector::unitary`,
which is declared outside this file. -/
def renderSegment (unitary : Point α → Point α) (segment : Segment α) (height : α) :
    List (GLCall α) :=
  let v : Point α := ⟨segment.b.x - segment.a.x, segment.b.y - segment.a.y⟩
  let n : Point α := unitary ⟨v.y, -v.x⟩
  [ GLCall.glNormal3d n.x n.y 0,
    GLCall.glBegin GLenum.GL_QUADS,
    GLCall.glTexCoord2d (751390 / 1000000) (248609 / 1000000),
    GLCall.glVertex3d segment.a.x segment.a.y 0,
    GLCall.glTexCoord2d (248609 / 1000000) (248609 / 1000000),
    GLCall.glVertex3d segment.b.x segment.b.y 0,
    GLCall.glTexCoord2d (1739 / 1000000) (1739 / 1000000),
    GLCall.glVertex3d segment.b.x segment.b.y height,
    GLCall.glTexCoord2d (998266 / 1000000) (1739 / 1000000),
    GLCall.glVertex3d segment.a.x segment.a.y height,
    GLCall.glEnd ]

/-- The function `ViewerWidget::renderObjectHook`. -/
def renderObjectHook (object : PhysicalObject α) : List (GLCall α) :=
  if object.isRobot then
    [ GLCall.glColor3d 0 0 0,
      GLCall.glBegin GLenum.GL_TRIANGLES,
      GLCall.glVertex3d 2 0 (object.height + 1 / 100),
      GLCall.glVertex3d (-2) 1 (object.height + 1 / 100),
      GLCall.glVertex3d (-2) (-1) (object.height + 1 / 100),
      GLCall.glEnd ]
  else []

/-- The calls of `ViewerWidget::renderSimpleObject` that draw the shape: the
`if (object->boundingSurface) ... else ...` statement between `glNewList` and
the call of `renderObjectHook`.  `gluNewQuadric` is taken to succeed. -/
def renderSimpleObjectShape (unitary : Point α → Point α) (object : PhysicalObject α) :
    List (GLCall α) :=
  match object.boundingSurface with
  | some boundingSurface =>
    let segmentCount := boundingSurface.length
    (List.range segmentCount).flatMap (fun i =>
        renderSegment unitary
          ⟨boundingSurface.getD i ⟨0, 0⟩,
            boundingSurface.getD ((i + 1) % segmentCount) ⟨0, 0⟩⟩
          object.height) ++
      [GLCall.glNormal3d 1 1 0, GLCall.glBegin GLenum.GL_TRIANGLE_FAN] ++
      (List.range segmentCount).map (fun i =>
        GLCall.glVertex3d (boundingSurface.getD i ⟨0, 0⟩).x
          (boundingSurface.getD i ⟨0, 0⟩).y object.height) ++
      [GLCall.glEnd]
  | none =>
    [ GLCall.gluNewQuadric,
      GLCall.gluCylinder object.r object.r object.height 32 1,
      GLCall.glTranslated 0 0 object.height,
      GLCall.gluDisk 0 object.r 32 1,
      GLCall.gluDeleteQuadric ]

/-- The OpenGL calls of `ViewerWidget::renderSimpleObject` once the
`SimpleDisplayList` with display list `list` has been created. -/
def renderSimpleObjectCalls (unitary : Point α → Point α) (object : PhysicalObject α)
    (list : GLuint) : List (GLCall α) :=
  [GLCall.glNewList list GLenum.GL_COMPILE] ++ renderSimpleObjectShape unitary object ++
    renderObjectHook object ++ [GLCall.glEndList]

/-- A vertex of a primitive: its position and the texture coordinate current
when it was issued, if one had been set. -/
structure GLVertex (α : Type) where
  x : α
  y : α
  z : α
  texCoord : Option (α × α)
  deriving DecidableEq, Repr

/-- A primitive issued between `glBegin` and `glEnd`. -/
structure Primitive (α : Type) where
  mode : GLenum
  vertices : List (GLVertex α)
  deriving DecidableEq, Repr

/-- Immediate-mode assembly of primitives from a list of calls: `tex` is the
current texture coordinate and `cur` the primitive being specified, if any. -/
def assemble (tex : Option (α × α)) (cur : Option (Primitive α)) :
    List (GLCall α) → List (Primitive α)
  | [] => []
  | GLCall.glBegin mode :: cs => assemble tex (some ⟨mode, []⟩) cs
  | GLCall.glTexCoord2d s t :: cs => assemble (some (s, t)) cur cs
  | GLCall.glTexCoord2f s t :: cs => assemble (some (s, t)) cur cs
  | GLCall.glVertex3d x y z :: cs =>
    assemble tex (cur.map (fun q => ⟨q.mode, q.vertices ++ [⟨x, y, z, tex⟩]⟩)) cs
  | GLCall.glVertex2f x y :: cs =>
    assemble tex (cur.map (fun q => ⟨q.mode, q.vertices ++ [⟨x, y, 0, tex⟩]⟩)) cs
  | GLCall.glEnd :: cs =>
    match cur with
    | some q => q :: assemble tex none cs
    | none => assemble tex none cs
  | _ :: cs => assemble tex cur cs

/-- The primitives issued by a list of calls, starting outside `glBegin` with
no texture coordinate set. -/
def primitivesOf (cs : List (GLCall α)) : List (Primitive α) := assemble none none cs

/-- The side wall quad of height `height` over the segment from `a` to `b`,
with the texture corners of `renderSegment`. -/
def wallQuad (a b : Point α) (height : α) : Primitive α :=
  ⟨GLenum.GL_QUADS,
    [ ⟨a.x, a.y, 0, some (751390 / 1000000, 248609 / 1000000)⟩,
      ⟨b.x, b.y, 0, some (248609 / 1000000, 248609 / 1000000)⟩,
      ⟨b.x, b.y, height, some (1739 / 1000000, 1739 / 1000000)⟩,
      ⟨a.x, a.y, height, some (998266 / 1000000, 1739 / 1000000)⟩ ]⟩

end Geometry

/-! ## The E-puck model -/

section Wheels

variable {α : Type} [LinearOrderedField α] [FloorRing α]

/-- Rounding towards zero to an integer. -/
def trunc (q : α) : Int := if 0 ≤ q then ⌊q⌋ else ⌈q⌉

/-- The C library function `fmod` in exact arithmetic: `x - n * y` where `n`
is the quotient `x / y` rounded towards zero. -/
def fmod (x y : α) : α := x - y * (trunc (x / y) : α)

/-- The constant `wheelRadius` of `EPuckModel::draw`, 2.1. -/
def wheelRadius : α := 21 / 10

/-- The constant `wheelCirc` of `EPuckModel::draw`. -/
def wheelCirc (M_PI : α) : α := 2 * M_PI * wheelRadius

/-- The constant `radiosityScale` of `EPuckModel::draw`, 1.01. -/
def radiosityScale : α := 101 / 100

/-- The angle argument of the `glRotated` calls of `EPuckModel::draw` for a
wheel of odometry `odometry`. -/
def wheelAngle (M_PI : α) (odometry : α) : α :=
  (fmod odometry (wheelCirc M_PI) * 360) / wheelCirc M_PI

/-- The function `EPuckModel::draw` on a model with display lists `lists` and textures
`textures`; `none` when the assertion of `polymorphic_downcast` fails, the
object not being a `DifferentialWheeled`. -/
def EPuckModel.draw (M_PI : α) (lists textures : List GLuint) (object : PhysicalObject α) :
    Option (List (GLCall α)) :=
  let body (leftOdometry rightOdometry : α) : List (GLCall α) :=
    [ GLCall.glTranslated 0 0 wheelRadius,
      GLCall.glEnable GLenum.GL_TEXTURE_2D,
      GLCall.glBindTexture GLenum.GL_TEXTURE_2D (textures.getD 0 0),
      GLCall.glColor3d 1 1 1,
      GLCall.glCallList (lists.getD 0 0),
      GLCall.glCallList (lists.getD 1 0),
      GLCall.glColor3d
        (3 / 5 + object.color.r - 3 / 10 * object.color.g - 3 / 10 * object.color.b)
        (3 / 5 + object.color.g - 3 / 10 * object.color.r - 3 / 10 * object.color.b)
        (3 / 5 + object.color.b - 3 / 10 * object.color.r - 3 / 10 * object.color.g),
      GLCall.glCallList (lists.getD 2 0),
      GLCall.glColor3d 1 1 1,
      GLCall.glPushMatrix,
      GLCall.glRotated ((fmod leftOdometry (wheelCirc M_PI) * 360) / wheelCirc M_PI) 0 1 0,
      GLCall.glCallList (lists.getD 3 0),
      GLCall.glPopMatrix,
      GLCall.glPushMatrix,
      GLCall.glRotated ((fmod rightOdometry (wheelCirc M_PI) * 360) / wheelCirc M_PI) 0 1 0,
      GLCall.glCallList (lists.getD 4 0),
      GLCall.glPopMatrix,
      GLCall.glBindTexture GLenum.GL_TEXTURE_2D (textures.getD 1 0),
      GLCall.glDisable GLenum.GL_LIGHTING,
      GLCall.glEnable GLenum.GL_BLEND,
      GLCall.glBlendFunc GLenum.GL_ZERO GLenum.GL_SRC_COLOR,
      GLCall.glPushMatrix,
      GLCall.glScaled radiosityScale radiosityScale radiosityScale,
      GLCall.glTranslated 0 (-(1 / 40)) 0,
      GLCall.glCallList (lists.getD 3 0),
      GLCall.glPopMatrix,
      GLCall.glPushMatrix,
      GLCall.glScaled radiosityScale radiosityScale radiosityScale,
      GLCall.glTranslated 0 (1 / 40) 0,
      GLCall.glCallList (lists.getD 4 0),
      GLCall.glPopMatrix,
      GLCall.glTranslated 0 0 (-wheelRadius + 1 / 100),
      GLCall.glBegin GLenum.GL_QUADS,
      GLCall.glTexCoord2f (1 / 2) 0,
      GLCall.glVertex2f (-5) (-5),
      GLCall.glTexCoord2f (1 / 2) (1 / 2),
      GLCall.glVertex2f 5 (-5),
      GLCall.glTexCoord2f 0 (1 / 2),
      GLCall.glVertex2f 5 5,
      GLCall.glTexCoord2f 0 0,
      GLCall.glVertex2f (-5) 5,
      GLCall.glEnd,
      GLCall.glBlendFunc GLenum.GL_SRC_ALPHA GLenum.GL_ONE_MINUS_SRC_ALPHA,
      GLCall.glDisable GLenum.GL_BLEND,
      GLCall.glEnable GLenum.GL_LIGHTING,
      GLCall.glDisable GLenum.GL_TEXTURE_2D ]
  match object.dynamicType with
  | DynamicType.DifferentialWheeled leftOdometry rightOdometry =>
    some (body leftOdometry rightOdometry)
  | DynamicType.EPuck leftOdometry rightOdometry => some (body leftOdometry rightOdometry)
  | _ => none

/-- The angle of a `glRotated` call, `none` for any other call. -/
def rotationAngle : GLCall α → Option α
  | GLCall.glRotated angle _ _ _ => some angle
  | _ => none

end Wheels

/-! ## The view transform -/

section ViewTransform

variable {α : Type} [Field α]

/-- The macro `rad2deg`. -/
def rad2deg (M_PI : α) : α := 180 / M_PI

/-- The calls of `ViewerWidget::paintGL` that load the modelview matrix, from
`glMatrixMode(GL_MODELVIEW)` to `glTranslated`. -/
def paintGLModelview (M_PI : α) (v : ViewerWidget α) : List (GLCall α) :=
  [ GLCall.glMatrixMode GLenum.GL_MODELVIEW,
    GLCall.glLoadIdentity,
    GLCall.glRotated (-90) 1 0 0,
    GLCall.glRotated (rad2deg M_PI * v.pitch) 1 0 0,
    GLCall.glRotated 90 0 0 1,
    GLCall.glRotated (rad2deg M_PI * v.yaw) 0 0 1,
    GLCall.glTranslated v.pos.x v.pos.y (-v.altitude) ]

/-- The matrix by which `glRotated(angle, x, y, z)` multiplies the current
matrix, as the OpenGL specification gives it for an axis of length one (every
axis in the source is a coordinate axis); `angle` is in degrees. -/
def rotationMatrix (M_PI : α) (cos sin : α → α) (angle x y z : α) :
    Matrix (Fin 4) (Fin 4) α :=
  let c := cos (angle * M_PI / 180)
  let s := sin (angle * M_PI / 180)
  Matrix.of ![![x * x * (1 - c) + c, x * y * (1 - c) - z * s, x * z * (1 - c) + y * s, 0],
    ![y * x * (1 - c) + z * s, y * y * (1 - c) + c, y * z * (1 - c) - x * s, 0],
    ![x * z * (1 - c) - y * s, y * z * (1 - c) + x * s, z * z * (1 - c) + c, 0],
    ![0, 0, 0, 1]]

/-- The matrix by which `glTranslated(x, y, z)` multiplies the current matrix. -/
def translationMatrix (x y z : α) : Matrix (Fin 4) (Fin 4) α :=
  Matrix.of ![![1, 0, 0, x], ![0, 1, 0, y], ![0, 0, 1, z], ![0, 0, 0, 1]]

/-- The matrix by which `glScaled(x, y, z)` multiplies the current matrix. -/
def scalingMatrix (x y z : α) : Matrix (Fin 4) (Fin 4) α :=
  Matrix.of ![![x, 0, 0, 0], ![0, y, 0, 0], ![0, 0, z, 0], ![0, 0, 0, 1]]

/-- The effect of one call on the current matrix, as the OpenGL specification
gives it; calls that leave the matrix alone are the last case. -/
def applyMatrixCall (M_PI : α) (cos sin : α → α) (m : Matrix (Fin 4) (Fin 4) α) :
    GLCall α → Matrix (Fin 4) (Fin 4) α
  | GLCall.glLoadIdentity => 1
  | GLCall.glRotated angle x y z => m * rotationMatrix M_PI cos sin angle x y z
  | GLCall.glTranslated x y z => m * translationMatrix x y z
  | GLCall.glScaled x y z => m * scalingMatrix x y z
  | _ => m

/-- The modelview matrix that `paintGL` has loaded when it starts drawing the
world. -/
def modelview (M_PI : α) (cos sin : α → α) (v : ViewerWidget α) : Matrix (Fin 4) (Fin 4) α :=
  (paintGLModelview M_PI v).foldl (applyMatrixCall M_PI cos sin) 1

/-- The rotation about the X axis by `angle` degrees. -/
def Rx (M_PI : α) (cos sin : α → α) (angle : α) : Matrix (Fin 4) (Fin 4) α :=
  Matrix.of ![![1, 0, 0, 0],
    ![0, cos (angle * M_PI / 180), -sin (angle * M_PI / 180), 0],
    ![0, sin (angle * M_PI / 180), cos (angle * M_PI / 180), 0],
    ![0, 0, 0, 1]]

/-- The rotation about the Z axis by `angle` degrees. -/
def Rz (M_PI : α) (cos sin : α → α) (angle : α) : Matrix (Fin 4) (Fin 4) α :=
  Matrix.of ![![cos (angle * M_PI / 180), -sin (angle * M_PI / 180), 0, 0],
    ![sin (angle * M_PI / 180), cos (angle * M_PI / 180), 0, 0],
    ![0, 0, 1, 0],
    ![0, 0, 0, 1]]

end ViewTransform

/-! ## Resources and the render pass -/

/-- The objects derived from `ViewerWidget::ViewerUserData` that the viewer
creates, with their members; `deletedWithObject` is the member of the base
class. -/
inductive ViewerUserData where
  | SimpleDisplayList (list : GLuint) (deletedWithObject : Bool)
  | EPuckModel (lists textures : List GLuint) (deletedWithObject : Bool)
  deriving DecidableEq, Repr

/-- Whether the object is an `EPuckModel`. -/
def ViewerUserData.isEPuckModel : ViewerUserData → Bool
  | ViewerUserData.EPuckModel _ _ _ => true
  | _ => false

/-- The widget together with the state it works on: the heap of
`ViewerUserData` objects, the next names handed out by `glGenLists` and
`bindTexture`, and the calls issued so far. -/
structure Runtime (α : Type) where
  viewer : ViewerWidget α
  heap : List ViewerUserData
  nextList : GLuint
  nextTexture : GLuint
  calls : List (GLCall α)
  deriving DecidableEq, Repr

section RenderPass

variable {α : Type} [LinearOrderedField α] [FloorRing α]

/-- The expression `new SimpleDisplayList`: the constructor reserves a display list with
`glGenLists(1)` and sets `deletedWithObject = true`.  Returns the address of
the new object. -/
def newSimpleDisplayList (rt : Runtime α) : Runtime α × Ptr :=
  ({ rt with
      heap := rt.heap ++ [ViewerUserData.SimpleDisplayList rt.nextList true]
      nextList := rt.nextList + 1
      calls := rt.calls ++ [GLCall.glGenLists 1] },
    rt.heap.length)

/-- Modelled from the spec: `GenEPuckBody`, `GenEPuckRest`, `GenEPuckRing`,
`GenEPuckWheelLeft` and `GenEPuckWheelRight` are declared in
`objects/Objects.h` and defined outside this file; each is taken to build one
compiled geometry handle, a fresh display list, recorded as the call
`genEPuckMesh part list`.

`new EPuckModel(viewer)`: the base constructor sets
`deletedWithObject = false`, two textures are bound and five display lists
generated.  Returns the address of the new object. -/
def newEPuckModel (rt : Runtime α) : Runtime α × Ptr :=
  ({ rt with
      heap := rt.heap ++
        [ViewerUserData.EPuckModel
          [rt.nextList, rt.nextList + 1, rt.nextList + 2, rt.nextList + 3, rt.nextList + 4]
          [rt.nextTexture, rt.nextTexture + 1] false]
      nextList := rt.nextList + 5
      nextTexture := rt.nextTexture + 2
      calls := rt.calls ++
        [ GLCall.bindTexture ":/textures/epuck.png",
          GLCall.bindTexture ":/textures/epuckr.png",
          GLCall.genEPuckMesh 0 rt.nextList,
          GLCall.genEPuckMesh 1 (rt.nextList + 1),
          GLCall.genEPuckMesh 2 (rt.nextList + 2),
          GLCall.genEPuckMesh 3 (rt.nextList + 3),
          GLCall.genEPuckMesh 4 (rt.nextList + 4) ] },
    rt.heap.length)

/-- The function `ViewerWidget::renderSimpleObject`. -/
def renderSimpleObject (unitary : Point α → Point α) (rt : Runtime α)
    (object : PhysicalObject α) : Runtime α × PhysicalObject α :=
  let created := newSimpleDisplayList rt
  let object1 : PhysicalObject α := { object with userData := some created.2 }
  ({ created.1 with
      calls := created.1.calls ++ renderSimpleObjectCalls unitary object1 rt.nextList },
    object1)

/-- The resolve step of `ViewerWidget::paintGL`: the statement
`if (!(*it)->userData) ...` at the head of the loop body. -/
def resolveObject (unitary : Point α → Point α) (rt : Runtime α) (object : PhysicalObject α) :
    Runtime α × PhysicalObject α :=
  if object.userData.isNone then
    if object.isEPuck then
      let rt1 : Runtime α :=
        if (rt.viewer.managedObjects.getD OBJECT_EPUCK_MODEL none).isNone then
          let created := newEPuckModel rt
          { created.1 with
            viewer :=
              { created.1.viewer with
                managedObjects :=
                  created.1.viewer.managedObjects.set OBJECT_EPUCK_MODEL (some created.2) } }
        else rt
      (rt1, { object with userData := rt1.viewer.managedObjects.getD OBJECT_EPUCK_MODEL none })
    else renderSimpleObject unitary rt object
  else (rt, object)

/-- The call `userData->draw(*it)` of `paintGL` after the asserting downcast
of the user data: `SimpleDisplayList::draw` or `EPuckModel::draw` according to
the object the pointer refers to; `none` when an assertion fails or the pointer
refers to no object. -/
def userDataDraw (M_PI : α) (rt : Runtime α) (object : PhysicalObject α) :
    Option (List (GLCall α)) :=
  match object.userData with
  | none => none
  | some p =>
    match rt.heap[p]? with
    | none => none
    | some (ViewerUserData.SimpleDisplayList list _) =>
      some [GLCall.glColor3d object.color.r object.color.g object.color.b,
        GLCall.glCallList list]
    | some (ViewerUserData.EPuckModel lists textures _) =>
      EPuckModel.draw M_PI lists textures object

/-- The function `ViewerWidget::displayObjectHook`, whose body is empty. -/
def displayObjectHook (_object : PhysicalObject α) : List (GLCall α) := []

/-- The function `ViewerWidget::sceneCompletedHook`, whose body is a comment. -/
def sceneCompletedHook : List (GLCall α) := []

/-- The body of the loop of `paintGL` for one object. -/
def paintObject (unitary : Point α → Point α) (M_PI : α) (rt : Runtime α)
    (object : PhysicalObject α) : Option (Runtime α × PhysicalObject α) :=
  let resolved := resolveObject unitary rt object
  match userDataDraw M_PI resolved.1 resolved.2 with
  | none => none
  | some drawCalls =>
    some ({ resolved.1 with
        calls := resolved.1.calls ++
          [ GLCall.glPushMatrix,
            GLCall.glTranslated resolved.2.pos.x resolved.2.pos.y 0,
            GLCall.glRotated (rad2deg M_PI * resolved.2.angle) 0 0 1 ] ++
          drawCalls ++ displayObjectHook resolved.2 ++ [GLCall.glPopMatrix] },
      resolved.2)

/-- The loop of `paintGL` over the objects of the world, in iteration order. -/
def paintObjects (unitary : Point α → Point α) (M_PI : α) (rt : Runtime α) :
    List (PhysicalObject α) → Option (Runtime α × List (PhysicalObject α))
  | [] => some (rt, [])
  | object :: objects =>
    match paintObject unitary M_PI rt object with
    | none => none
    | some step =>
      match paintObjects unitary M_PI step.1 objects with
      | none => none
      | some rest => some (rest.1, step.2 :: rest.2)

/-- The function `ViewerWidget::paintGL` for a widget of `width` by `height` pixels. -/
def paintGL (unitary : Point α → Point α) (M_PI : α) (width height : Int) (rt : Runtime α)
    (world : World α) : Option (Runtime α × World α) :=
  let rt0 : Runtime α :=
    { rt with
      calls := rt.calls ++
        [ GLCall.glClear,
          GLCall.glMatrixMode GLenum.GL_PROJECTION,
          GLCall.glLoadIdentity,
          GLCall.glFrustum (-1 * ((width : α) / (height : α)))
            (1 * ((width : α) / (height : α))) (-1) 1 2 2000 ] ++
        paintGLModelview M_PI rt.viewer ++
        [ GLCall.glLightfv GLenum.GL_LIGHT0 GLenum.GL_POSITION (world.w / 2) (world.h / 2) 60 1,
          GLCall.glCallList rt.viewer.worldList ] }
  match paintObjects unitary M_PI rt0 world.objects with
  | none => none
  | some painted =>
    some ({ painted.1 with calls := painted.1.calls ++ sceneCompletedHook },
      { world with objects := painted.2 })

/-- The state after `k` render passes in a row, `none` if one of them fails. -/
def paintGLTimes (unitary : Point α → Point α) (M_PI : α) (width height : Int) :
    Nat → Runtime α → World α → Option (Runtime α × World α)
  | 0, rt, world => some (rt, world)
  | k + 1, rt, world =>
    match paintGL unitary M_PI width height rt world with
    | none => none
    | some next => paintGLTimes unitary M_PI width height k next.1 next.2

/-- The entry of `managedObjects` at `OBJECT_EPUCK_MODEL`. -/
def epuckSlot (rt : Runtime α) : Option Ptr :=
  rt.viewer.managedObjects.getD OBJECT_EPUCK_MODEL none

/-- The number of `EPuckModel` objects constructed so far. -/
def countEPuckModels (heap : List ViewerUserData) : Nat :=
  heap.countP ViewerUserData.isEPuckModel

/-- Result of `dynamic_cast<DifferentialWheeled*>(object)` being non-null. -/
def PhysicalObject.isDifferentialWheeled (object : PhysicalObject α) : Bool :=
  match object.dynamicType with
  | DynamicType.DifferentialWheeled _ _ => true
  | DynamicType.EPuck _ _ => true
  | _ => false

/-- Well-formedness of the user data of an object: a non-null pointer refers
to an object of the heap, and to an `EPuckModel` only if the object is a
`DifferentialWheeled`. -/
def drawable (heap : List ViewerUserData) (object : PhysicalObject α) : Bool :=
  match object.userData with
  | none => true
  | some p =>
    match heap[p]? with
    | none => false
    | some (ViewerUserData.SimpleDisplayList _ _) => true
    | some (ViewerUserData.EPuckModel _ _ _) => object.isDifferentialWheeled

/-- Well-formedness of `managedObjects`: the slot `OBJECT_EPUCK_MODEL` exists
and, when not null, refers to an `EPuckModel` of the heap. -/
def slotOK (rt : Runtime α) : Bool :=
  decide (OBJECT_EPUCK_MODEL < rt.viewer.managedObjects.length) &&
    (match epuckSlot rt with
      | none => true
      | some m =>
        match rt.heap[m]? with
        | some u => u.isEPuckModel
        | none => false)

/-- What one successful run of the loop body does to the runtime `rt` and the
object `o`, giving `rt1` and `o1`. -/
structure StepFacts (rt : Runtime α) (o : PhysicalObject α) (rt1 : Runtime α)
    (o1 : PhysicalObject α) : Prop where
  heap_ext : ∃ ext, rt1.heap = rt.heap ++ ext
  slot_ok : slotOK rt1 = true
  same : o1 = { o with userData := o1.userData }
  out_ok : drawable rt1.heap o1 = true ∧ o1.userData ≠ none
  bound : o.userData ≠ none → o1 = o ∧ rt1.heap = rt.heap ∧ rt1.viewer = rt.viewer
  epuck : o.userData = none → o.isEPuck = true → o1.userData = epuckSlot rt1
  simple : o.userData = none → o.isEPuck = false →
    o1.userData = some rt.heap.length ∧
      ∃ list, rt1.heap = rt.heap ++ [ViewerUserData.SimpleDisplayList list true]
  slot_keep : ∀ m, epuckSlot rt = some m →
    epuckSlot rt1 = some m ∧ countEPuckModels rt1.heap = countEPuckModels rt.heap
  slot_new : epuckSlot rt = none → o.userData = none → o.isEPuck = true →
    ∃ m, epuckSlot rt1 = some m ∧ countEPuckModels rt1.heap = countEPuckModels rt.heap + 1
  slot_none : epuckSlot rt = none → ¬(o.userData = none ∧ o.isEPuck = true) →
    epuckSlot rt1 = none ∧ countEPuckModels rt1.heap = countEPuckModels rt.heap

/-- What one successful run of the loop over the objects `todo` does, giving
the runtime `rt1` and the objects `out`. -/
structure PassFacts (rt : Runtime α) (todo : List (PhysicalObject α)) (rt1 : Runtime α)
    (out : List (PhysicalObject α)) : Prop where
  heap_ext : ∃ ext, rt1.heap = rt.heap ++ ext
  slot_ok : slotOK rt1 = true
  length_eq : out.length = todo.length
  out_ok : ∀ o ∈ out, drawable rt1.heap o = true ∧ o.userData ≠ none
  same : ∀ (i : Nat) (o o1 : PhysicalObject α), todo[i]? = some o → out[i]? = some o1 →
    o1 = { o with userData := o1.userData }
  bound : ∀ (i : Nat) (o o1 : PhysicalObject α), todo[i]? = some o → out[i]? = some o1 →
    o.userData ≠ none → o1 = o
  epuck : ∀ (i : Nat) (o o1 : PhysicalObject α), todo[i]? = some o → out[i]? = some o1 →
    o.userData = none → o.isEPuck = true → o1.userData = epuckSlot rt1
  simple : ∀ (i : Nat) (o o1 : PhysicalObject α), todo[i]? = some o → out[i]? = some o1 →
    o.userData = none → o.isEPuck = false →
    ∃ a list, o1.userData = some a ∧ rt.heap.length ≤ a ∧
      rt1.heap[a]? = some (ViewerUserData.SimpleDisplayList list true)
  distinct : ∀ (i j : Nat) (oi oj oi1 oj1 : PhysicalObject α), i < j →
    todo[i]? = some oi → todo[j]? = some oj → out[i]? = some oi1 → out[j]? = some oj1 →
    oi.userData = none → oi.isEPuck = false → oj.userData = none → oj.isEPuck = false →
    oi1.userData ≠ oj1.userData
  slot_keep : ∀ m, epuckSlot rt = some m →
    epuckSlot rt1 = some m ∧ countEPuckModels rt1.heap = countEPuckModels rt.heap
  slot_new : epuckSlot rt = none → (∃ o ∈ todo, o.userData = none ∧ o.isEPuck = true) →
    ∃ m, epuckSlot rt1 = some m ∧ countEPuckModels rt1.heap = countEPuckModels rt.heap + 1
  frame : (∀ o ∈ todo, o.userData ≠ none) →
    out = todo ∧ rt1.heap = rt.heap ∧ rt1.viewer = rt.viewer

end RenderPass

/-! ## Teardown -/

section Teardown

variable {α : Type}

/-- The member `deletedWithObject` of a `ViewerUserData` object. -/
def ViewerUserData.deletedWithObject : ViewerUserData → Bool
  | ViewerUserData.SimpleDisplayList _ flag => flag
  | ViewerUserData.EPuckModel _ _ flag => flag

/-- Whether a call frees a resource of the rendering context: a display list
or a texture. -/
def GLCall.isDeletion : GLCall α → Bool
  | GLCall.glDeleteLists _ _ => true
  | GLCall.deleteTexture _ => true
  | _ => false

/-- Modelled from the spec: the body of
`World::disconnectExternalObjectsUserData` lies outside this file; following
the teardown rule it severs the references that objects hold into the cache:
the userData of every object bound to a resource that is not deleted with the
object becomes null.  It issues no OpenGL call. -/
def disconnectExternalObjectsUserData (heap : List ViewerUserData) (world : World α) :
    World α :=
  { world with
    objects := world.objects.map (fun o =>
      match o.userData with
      | none => o
      | some p =>
        match heap[p]? with
        | some u => if u.deletedWithObject then o else { o with userData := none }
        | none => o) }

/-- The function `EPuckModel::cleanup` on a model with display lists `lists` and textures
`textures`. -/
def EPuckModel.cleanup (lists textures : List GLuint) : List (GLCall α) :=
  textures.map (fun t => GLCall.deleteTexture t) ++
    lists.map (fun l => GLCall.glDeleteLists l 1)

/-- The destructor `ViewerWidget::~ViewerWidget`, where `isValid` is the result of
`isValid()`: the world after the disconnection and the calls issued.  The
`delete` of a managed object runs the destructor of `CustomRobotModel`, which
issues no call. -/
def ViewerWidget.dtor (isValid : Bool) (rt : Runtime α) (world : World α) :
    World α × List (GLCall α) :=
  (disconnectExternalObjectsUserData rt.heap world,
    (if isValid then
        [GLCall.glDeleteLists rt.viewer.worldList 1, GLCall.deleteTexture rt.viewer.worldTexture]
      else []) ++
      rt.viewer.managedObjects.flatMap (fun slot =>
        match slot with
        | none => []
        | some p =>
          match rt.heap[p]? with
          | some (ViewerUserData.EPuckModel lists textures _) =>
            EPuckModel.cleanup lists textures
          | _ => []))

end Teardown

/-! ## Theorems -/

section CameraLemmas

variable {α : Type} [LinearOrderedField α]

theorem clamp_mem (x low high : α) (h : low ≤ high) :
    low ≤ clamp x low high ∧ clamp x low high ≤ high := by
  unfold clamp
  split_ifs with h1 h2
  · exact ⟨le_refl _, h⟩
  · exact ⟨h, le_refl _⟩
  · exact ⟨not_lt.mp h1, not_lt.mp h2⟩

theorem clamp_of_mem (x low high : α) (h1 : low ≤ x) (h2 : x ≤ high) :
    clamp x low high = x := by
  unfold clamp
  rw [if_neg (not_lt.mpr h1), if_neg (not_lt.mpr h2)]

theorem handleEvent_pitch_mem (M_PI : α) (cos sin : α → α) (hpi : 0 ≤ M_PI)
    (v : ViewerWidget α) (e : InputEvent)
    (hv : -M_PI / 2 ≤ v.pitch ∧ v.pitch ≤ M_PI / 2) :
    -M_PI / 2 ≤ (handleEvent M_PI cos sin v e).pitch ∧
      (handleEvent M_PI cos sin v e).pitch ≤ M_PI / 2 := by
  have hlh : -M_PI / 2 ≤ M_PI / 2 := by
    have h2 : (0 : α) < 2 := by norm_num
    exact div_le_div_of_nonneg_right (by linarith) (le_of_lt h2)
  cases e with
  | press button pos m =>
    simp only [handleEvent, mousePressEvent]
    split_ifs <;> exact hv
  | release button pos m =>
    simp only [handleEvent, mouseReleaseEvent]
    split_ifs <;> exact hv
  | move pos m =>
    simp only [handleEvent, mouseMoveEvent]
    split_ifs
    · exact hv
    · exact clamp_mem _ _ _ hlh
    · exact hv
  | wheel delta m =>
    simp only [handleEvent, wheelEvent]
    split_ifs <;> exact hv

theorem handleEvents_pitch_mem (M_PI : α) (cos sin : α → α) (hpi : 0 ≤ M_PI)
    (es : List InputEvent) (v : ViewerWidget α)
    (hv : -M_PI / 2 ≤ v.pitch ∧ v.pitch ≤ M_PI / 2) :
    -M_PI / 2 ≤ (handleEvents M_PI cos sin v es).pitch ∧
      (handleEvents M_PI cos sin v es).pitch ≤ M_PI / 2 := by
  induction es generalizing v with
  | nil => exact hv
  | cons e es ih =>
    exact ih _ (handleEvent_pitch_mem M_PI cos sin hpi v e hv)

end CameraLemmas

section DragLemmas

variable {α : Type} [LinearOrderedField α]

theorem handleEvents_append (M_PI : α) (cos sin : α → α) (es fs : List InputEvent)
    (v : ViewerWidget α) :
    handleEvents M_PI cos sin v (es ++ fs) =
      handleEvents M_PI cos sin (handleEvents M_PI cos sin v es) fs := by
  induction es generalizing v with
  | nil => rfl
  | cons e es ih => exact ih _

theorem noModifier_land : NoModifier &&& ShiftModifier = 0 := by decide

theorem mouseMoveEvent_orbit (M_PI : α) (cos sin : α → α) (v : ViewerWidget α)
    (p : QPoint) (m : Nat) (hm : m &&& ShiftModifier = 0) (hg : v.mouseGrabbed = true) :
    mouseMoveEvent M_PI cos sin v p m =
      { v with
        yaw := v.yaw + (1 / 100) * ((p.x - v.mouseGrabPos.x : Int) : α)
        pitch := clamp (v.pitch + (1 / 100) * ((p.y - v.mouseGrabPos.y : Int) : α))
          (-M_PI / 2) (M_PI / 2)
        mouseGrabPos := p } := by
  simp [mouseMoveEvent, hg, hm, QPoint.sub]

/-- Effect of a whole unmodified drag on an armed widget: yaw and the grab
position move by the summed displacement, the pitch takes some value `q`,
which is the unclamped sum when no intermediate value leaves the range. -/
theorem handleEvents_drag (M_PI : α) (cos sin : α → α) (ps : List QPoint)
    (v : ViewerWidget α) (hg : v.mouseGrabbed = true) :
    ∃ q : α,
      handleEvents M_PI cos sin v (dragEvents ps) =
        { v with
          yaw := v.yaw +
            (1 / 100) * ((((dragDeltas v.mouseGrabPos ps).map QPoint.x).sum : Int) : α)
          pitch := q
          mouseGrabPos :=
            ⟨v.mouseGrabPos.x + ((dragDeltas v.mouseGrabPos ps).map QPoint.x).sum,
             v.mouseGrabPos.y + ((dragDeltas v.mouseGrabPos ps).map QPoint.y).sum⟩ } ∧
      ((∀ p ∈ ps, -M_PI / 2 ≤ v.pitch + (1 / 100) * ((p.y - v.mouseGrabPos.y : Int) : α) ∧
          v.pitch + (1 / 100) * ((p.y - v.mouseGrabPos.y : Int) : α) ≤ M_PI / 2) →
        q = v.pitch + (1 / 100) * ((((dragDeltas v.mouseGrabPos ps).map QPoint.y).sum : Int) : α)) := by
  induction ps generalizing v with
  | nil =>
    refine ⟨v.pitch, ?_, ?_⟩
    · cases v
      simp [dragEvents, handleEvents, dragDeltas]
    · intro _
      simp [dragDeltas]
  | cons p ps ih =>
    have hstep := mouseMoveEvent_orbit M_PI cos sin v p NoModifier noModifier_land hg
    obtain ⟨q, hq, hsat⟩ := ih (mouseMoveEvent M_PI cos sin v p NoModifier) (by rw [hstep]; exact hg)
    refine ⟨q, ?_, ?_⟩
    · have hrun : handleEvents M_PI cos sin v (dragEvents (p :: ps)) =
          handleEvents M_PI cos sin (mouseMoveEvent M_PI cos sin v p NoModifier)
            (dragEvents ps) := rfl
      rw [hrun, hq, hstep]
      simp only [dragDeltas, List.map_cons, List.sum_cons, QPoint.sub, ViewerWidget.mk.injEq,
        QPoint.mk.injEq, true_and, and_true]
      refine ⟨⟨?_, ?_⟩, ?_⟩
      · ring
      · ring
      · push_cast
        ring
    · intro hall
      have hp := hall p (List.mem_cons_self _ _)
      have hclamp := clamp_of_mem _ _ _ hp.1 hp.2
      have hq2 := hsat (by
        intro p2 hp2
        have h2 := hall p2 (List.mem_cons_of_mem _ hp2)
        rw [hstep]
        simp only [hclamp]
        have e : v.pitch + 1 / 100 * ((p.y - v.mouseGrabPos.y : Int) : α) +
            1 / 100 * ((p2.y - p.y : Int) : α) =
            v.pitch + 1 / 100 * ((p2.y - v.mouseGrabPos.y : Int) : α) := by
          push_cast
          ring
        rw [e]
        exact h2)
      rw [hq2, hstep]
      simp only [hclamp, dragDeltas, List.map_cons, List.sum_cons, QPoint.sub]
      push_cast
      ring

/-- A zero-sum unmodified drag, repeated `n` times, changes at most the pitch,
and not even the pitch when no intermediate value leaves the range. -/
theorem handleEvents_repeat_drag (M_PI : α) (cos sin : α → α) (ps : List QPoint) (n : Nat)
    (v : ViewerWidget α) (hg : v.mouseGrabbed = true)
    (hx : ((dragDeltas v.mouseGrabPos ps).map QPoint.x).sum = 0)
    (hy : ((dragDeltas v.mouseGrabPos ps).map QPoint.y).sum = 0) :
    ∃ q : α,
      handleEvents M_PI cos sin v (repeatEvents n (dragEvents ps)) = { v with pitch := q } ∧
      ((∀ p ∈ ps, -M_PI / 2 ≤ v.pitch + (1 / 100) * ((p.y - v.mouseGrabPos.y : Int) : α) ∧
          v.pitch + (1 / 100) * ((p.y - v.mouseGrabPos.y : Int) : α) ≤ M_PI / 2) →
        q = v.pitch) := by
  induction n generalizing v with
  | zero => exact ⟨v.pitch, rfl, fun _ => rfl⟩
  | succ n ih =>
    obtain ⟨q1, hq1, hs1⟩ := handleEvents_drag M_PI cos sin ps v hg
    rw [hx, hy] at hq1
    have hv1 : handleEvents M_PI cos sin v (dragEvents ps) = { v with pitch := q1 } := by
      rw [hq1]
      simp
    obtain ⟨q2, hq2, hs2⟩ := ih { v with pitch := q1 } hg hx hy
    refine ⟨q2, ?_, ?_⟩
    · have hrep : repeatEvents (n + 1) (dragEvents ps) =
          dragEvents ps ++ repeatEvents n (dragEvents ps) := rfl
      rw [hrep, handleEvents_append, hv1, hq2]
    · intro hall
      have e1 : q1 = v.pitch := by
        rw [hs1 hall, hy]
        simp
      have e2 := hs2 (by
        intro p hp
        simp only [e1]
        exact hall p hp)
      rw [e2, e1]

end DragLemmas

section GeometryLemmas

variable {α : Type} [Field α]

theorem assemble_renderSegment (unitary : Point α → Point α) (seg : Segment α) (height : α)
    (tex : Option (α × α)) (rest : List (GLCall α)) :
    assemble tex none (renderSegment unitary seg height ++ rest) =
      wallQuad seg.a seg.b height ::
        assemble (some (998266 / 1000000, 1739 / 1000000)) none rest := by
  simp [renderSegment, assemble, wallQuad]

theorem assemble_sides (unitary : Point α → Point α) (f : Nat → Segment α) (height : α)
    (is : List Nat) (tex : Option (α × α)) (rest : List (GLCall α)) :
    assemble tex none (is.flatMap (fun i => renderSegment unitary (f i) height) ++ rest) =
      is.map (fun i => wallQuad (f i).a (f i).b height) ++
        assemble (if is = [] then tex else some (998266 / 1000000, 1739 / 1000000)) none
          rest := by
  induction is generalizing tex with
  | nil => simp
  | cons i is ih =>
    rw [List.flatMap_cons, List.append_assoc, assemble_renderSegment, ih]
    simp

theorem assemble_fan (tex : Option (α × α)) (height : α) (ps : List (Point α))
    (vs : List (GLVertex α)) :
    assemble tex (some ⟨GLenum.GL_TRIANGLE_FAN, vs⟩)
        (ps.map (fun q => GLCall.glVertex3d q.x q.y height) ++ [GLCall.glEnd]) =
      [⟨GLenum.GL_TRIANGLE_FAN, vs ++ ps.map (fun q => ⟨q.x, q.y, height, tex⟩)⟩] := by
  induction ps generalizing vs with
  | nil => simp [assemble]
  | cons q ps ih =>
    have h := ih (vs ++ [⟨q.x, q.y, height, tex⟩])
    rw [List.append_assoc] at h
    simpa [assemble] using h

theorem range_map_getD {β γ : Type} (l : List β) (d : β) (g : β → γ) :
    (List.range l.length).map (fun i => g (l.getD i d)) = l.map g := by
  apply List.ext_getElem
  · simp
  · intro i h1 h2
    simp at h1
    simp [List.getD_eq_getElem?_getD, List.getElem?_eq_getElem h1]

theorem primitivesOf_renderSimpleObjectShape (unitary : Point α → Point α)
    (object : PhysicalObject α) (p : List (Point α))
    (hp : object.boundingSurface = some p) (hn : 1 ≤ p.length) :
    primitivesOf (renderSimpleObjectShape unitary object) =
      (List.range p.length).map (fun i =>
          wallQuad (p.getD i ⟨0, 0⟩) (p.getD ((i + 1) % p.length) ⟨0, 0⟩) object.height) ++
        [⟨GLenum.GL_TRIANGLE_FAN, p.map (fun q => ⟨q.x, q.y, object.height,
          some (998266 / 1000000, 1739 / 1000000)⟩)⟩] := by
  have hne : List.range p.length ≠ [] := by
    intro h
    have h0 := congrArg List.length h
    simp only [List.length_range, List.length_nil] at h0
    omega
  unfold primitivesOf renderSimpleObjectShape
  rw [hp]
  simp only [List.append_assoc]
  rw [assemble_sides unitary
    (fun i => ⟨p.getD i ⟨0, 0⟩, p.getD ((i + 1) % p.length) ⟨0, 0⟩⟩) object.height]
  rw [if_neg hne]
  congr 1
  rw [range_map_getD p ⟨0, 0⟩ (fun q => GLCall.glVertex3d q.x q.y object.height)]
  simp only [List.cons_append, List.nil_append, assemble]
  exact (assemble_fan _ object.height p []).trans (by simp)

end GeometryLemmas

section WheelLemmas

variable {α : Type} [LinearOrderedField α] [FloorRing α]

theorem fmod_of_nonneg (x y : α) (hy : 0 < y) (hx : 0 ≤ x) :
    fmod x y = x - y * ((⌊x / y⌋ : Int) : α) := by
  unfold fmod trunc
  rw [if_pos (div_nonneg hx hy.le)]

theorem fmod_of_nonpos (x y : α) (hy : 0 < y) (hx : x ≤ 0) :
    fmod x y = x - y * ((⌈x / y⌉ : Int) : α) := by
  unfold fmod trunc
  have hq : x / y ≤ 0 := div_nonpos_of_nonpos_of_nonneg hx hy.le
  by_cases h0 : 0 ≤ x / y
  · have e : x / y = 0 := le_antisymm hq h0
    rw [if_pos h0, e]
    simp
  · rw [if_neg h0]

theorem fmod_bounds (x y : α) (hy : 0 < y) : -y < fmod x y ∧ fmod x y < y := by
  have hxy : x = x / y * y := by field_simp
  rcases le_total 0 x with hx | hx
  · rw [fmod_of_nonneg x y hy hx]
    have h1 := Int.floor_le (x / y)
    have h2 := Int.lt_floor_add_one (x / y)
    have h3 : (⌊x / y⌋ : α) * y ≤ x / y * y := mul_le_mul_of_nonneg_right h1 hy.le
    have h4 : x / y * y < ((⌊x / y⌋ : α) + 1) * y := mul_lt_mul_of_pos_right h2 hy
    rw [← hxy] at h3 h4
    constructor <;> nlinarith
  · rw [fmod_of_nonpos x y hy hx]
    have h1 := Int.le_ceil (x / y)
    have h2 := Int.ceil_lt_add_one (x / y)
    have h3 : x / y * y ≤ (⌈x / y⌉ : α) * y := mul_le_mul_of_nonneg_right h1 hy.le
    have h4 : (⌈x / y⌉ : α) * y < (x / y + 1) * y := mul_lt_mul_of_pos_right h2 hy
    rw [add_mul, ← hxy] at h4
    rw [← hxy] at h3
    constructor <;> nlinarith

theorem fmod_add_period_of_nonneg (x y : α) (hy : 0 < y) (hx : 0 ≤ x) :
    fmod (x + y) y = fmod x y := by
  have e : (x + y) / y = x / y + 1 := by field_simp
  rw [fmod_of_nonneg (x + y) y hy (by linarith), fmod_of_nonneg x y hy hx, e,
    Int.floor_add_one]
  push_cast
  ring

theorem fmod_add_period_of_le (x y : α) (hy : 0 < y) (hx : x ≤ -y) :
    fmod (x + y) y = fmod x y := by
  have e : (x + y) / y = x / y + 1 := by field_simp
  rw [fmod_of_nonpos (x + y) y hy (by linarith), fmod_of_nonpos x y hy (by linarith), e,
    Int.ceil_add_one]
  push_cast
  ring

theorem fmod_add_period_of_mid (x y : α) (hy : 0 < y) (h1 : -y < x) (h2 : x < 0) :
    fmod (x + y) y = fmod x y + y := by
  have e : (x + y) / y = x / y + 1 := by field_simp
  have hq1 : -1 < x / y := by
    rw [lt_div_iff₀ hy]
    linarith
  have hq2 : x / y < 0 := div_neg_of_neg_of_pos h2 hy
  have hc : ⌈x / y⌉ = 0 := by
    rw [Int.ceil_eq_iff]
    constructor
    · push_cast
      linarith
    · push_cast
      linarith
  have hf : ⌊x / y + 1⌋ = 0 := by
    rw [Int.floor_eq_iff]
    constructor
    · push_cast
      linarith
    · push_cast
      linarith
  rw [fmod_of_nonneg (x + y) y hy (by linarith), fmod_of_nonpos x y hy h2.le, e, hc, hf]
  push_cast
  ring

theorem fmod_of_mid (x y : α) (hy : 0 < y) (h1 : -y < x) (h2 : x < 0) : fmod x y = x := by
  have h := fmod_add_period_of_mid x y hy h1 h2
  have e : (x + y) / y = x / y + 1 := by field_simp
  have hq1 : -1 < x / y := by
    rw [lt_div_iff₀ hy]
    linarith
  have hq2 : x / y < 0 := div_neg_of_neg_of_pos h2 hy
  have hf : ⌊x / y + 1⌋ = 0 := by
    rw [Int.floor_eq_iff]
    constructor
    · push_cast
      linarith
    · push_cast
      linarith
  rw [fmod_of_nonneg (x + y) y hy (by linarith), e, hf] at h
  push_cast at h
  linarith

omit [FloorRing α] in
theorem wheelCirc_pos (M_PI : α) (h : 0 < M_PI) : 0 < wheelCirc M_PI := by
  unfold wheelCirc wheelRadius
  positivity

theorem wheelAngle_eq (M_PI d : α) :
    wheelAngle M_PI d = fmod d (wheelCirc M_PI) / wheelCirc M_PI * 360 := by
  unfold wheelAngle
  ring

theorem wheelAngle_bounds (M_PI d : α) (h : 0 < M_PI) :
    -360 < wheelAngle M_PI d ∧ wheelAngle M_PI d < 360 := by
  have hc := wheelCirc_pos M_PI h
  have hb := fmod_bounds d (wheelCirc M_PI) hc
  unfold wheelAngle
  constructor
  · rw [lt_div_iff₀ hc]
    linarith
  · rw [div_lt_iff₀ hc]
    linarith

end WheelLemmas

section PassLemmas

variable {α : Type} [LinearOrderedField α] [FloorRing α]

theorem getElem?_append_of_some {β : Type} (l ext : List β) (p : Nat) (b : β)
    (h : l[p]? = some b) : (l ++ ext)[p]? = some b := by
  have hlt : p < l.length := by
    by_contra hge
    rw [List.getElem?_eq_none (not_lt.mp hge)] at h
    exact Option.noConfusion h
  rw [List.getElem?_append_left hlt]
  exact h

theorem lt_length_of_getElem? {β : Type} (l : List β) (p : Nat) (b : β)
    (h : l[p]? = some b) : p < l.length := by
  by_contra hge
  rw [List.getElem?_eq_none (not_lt.mp hge)] at h
  exact Option.noConfusion h

theorem drawable_append (heap ext : List ViewerUserData) (o : PhysicalObject α)
    (h : drawable heap o = true) : drawable (heap ++ ext) o = true := by
  unfold drawable at h ⊢
  cases hu : o.userData with
  | none => rfl
  | some p =>
    rw [hu] at h
    simp only at h ⊢
    cases hp : heap[p]? with
    | none =>
      rw [hp] at h
      exact Bool.noConfusion h
    | some u =>
      rw [getElem?_append_of_some heap ext p u hp]
      rw [hp] at h
      exact h

theorem drawable_lt (heap : List ViewerUserData) (o : PhysicalObject α) (p : Ptr)
    (h : drawable heap o = true) (hu : o.userData = some p) : p < heap.length := by
  unfold drawable at h
  rw [hu] at h
  simp only at h
  cases hp : heap[p]? with
  | none =>
    rw [hp] at h
    exact Bool.noConfusion h
  | some u => exact lt_length_of_getElem? heap p u hp

theorem userDataDraw_some (M_PI : α) (rt : Runtime α) (o : PhysicalObject α) (p : Ptr)
    (hu : o.userData = some p) (h : drawable rt.heap o = true) :
    ∃ d, userDataDraw M_PI rt o = some d := by
  unfold drawable at h
  unfold userDataDraw
  rw [hu] at h ⊢
  simp only at h ⊢
  cases hp : rt.heap[p]? with
  | none =>
    rw [hp] at h
    exact Bool.noConfusion h
  | some u =>
    rw [hp] at h
    cases u with
    | SimpleDisplayList list flag => exact ⟨_, rfl⟩
    | EPuckModel lists textures flag =>
      simp only at h ⊢
      unfold PhysicalObject.isDifferentialWheeled at h
      unfold EPuckModel.draw
      cases hd : o.dynamicType with
      | PhysicalObject =>
        rw [hd] at h
        exact Bool.noConfusion h
      | Robot =>
        rw [hd] at h
        exact Bool.noConfusion h
      | DifferentialWheeled l r => exact ⟨_, rfl⟩
      | EPuck l r => exact ⟨_, rfl⟩

theorem isDifferentialWheeled_of_isEPuck (o : PhysicalObject α) (h : o.isEPuck = true) :
    o.isDifferentialWheeled = true := by
  unfold PhysicalObject.isEPuck at h
  unfold PhysicalObject.isDifferentialWheeled
  cases hd : o.dynamicType <;> rw [hd] at h <;> first | rfl | exact Bool.noConfusion h

theorem paintObject_of_draw (unitary : Point α → Point α) (M_PI : α) (rt : Runtime α)
    (o : PhysicalObject α) (d : List (GLCall α))
    (h : userDataDraw M_PI (resolveObject unitary rt o).1 (resolveObject unitary rt o).2 =
      some d) :
    ∃ calls, paintObject unitary M_PI rt o =
      some ({ (resolveObject unitary rt o).1 with calls := calls },
        (resolveObject unitary rt o).2) := by
  unfold paintObject
  simp only [h]
  exact ⟨_, rfl⟩

theorem resolveObject_bound (unitary : Point α → Point α) (rt : Runtime α)
    (o : PhysicalObject α) (h : o.userData ≠ none) : resolveObject unitary rt o = (rt, o) := by
  unfold resolveObject
  cases hu : o.userData with
  | none => exact absurd hu h
  | some p => simp

theorem resolveObject_simple (unitary : Point α → Point α) (rt : Runtime α)
    (o : PhysicalObject α) (hu : o.userData = none) (he : o.isEPuck = false) :
    ∃ calls, resolveObject unitary rt o =
      ({ rt with
          heap := rt.heap ++ [ViewerUserData.SimpleDisplayList rt.nextList true]
          nextList := rt.nextList + 1
          calls := calls },
        { o with userData := some rt.heap.length }) := by
  unfold resolveObject renderSimpleObject newSimpleDisplayList
  simp only [hu, he, Option.isNone_none, if_true, Bool.false_eq_true, if_false]
  exact ⟨_, rfl⟩

theorem resolveObject_epuck_some (unitary : Point α → Point α) (rt : Runtime α)
    (o : PhysicalObject α) (m : Ptr) (hu : o.userData = none) (he : o.isEPuck = true)
    (hs : epuckSlot rt = some m) :
    resolveObject unitary rt o = (rt, { o with userData := some m }) := by
  unfold epuckSlot at hs
  unfold resolveObject
  simp only [hu, he, hs, Option.isNone_none, Option.isNone_some, if_true, Bool.false_eq_true,
    if_false]

theorem resolveObject_epuck_none (unitary : Point α → Point α) (rt : Runtime α)
    (o : PhysicalObject α) (hu : o.userData = none) (he : o.isEPuck = true)
    (hs : epuckSlot rt = none) (hl : OBJECT_EPUCK_MODEL < rt.viewer.managedObjects.length) :
    ∃ calls lists textures, resolveObject unitary rt o =
      ({ rt with
          viewer :=
            { rt.viewer with
              managedObjects := rt.viewer.managedObjects.set OBJECT_EPUCK_MODEL
                (some rt.heap.length) }
          heap := rt.heap ++ [ViewerUserData.EPuckModel lists textures false]
          nextList := rt.nextList + 5
          nextTexture := rt.nextTexture + 2
          calls := calls },
        { o with userData := some rt.heap.length }) := by
  unfold epuckSlot at hs
  unfold resolveObject newEPuckModel
  have hget : (rt.viewer.managedObjects.set OBJECT_EPUCK_MODEL (some rt.heap.length)).getD
      OBJECT_EPUCK_MODEL none = some rt.heap.length := by
    simp [List.getD_eq_getElem?_getD, List.getElem?_set, hl]
  simp only [hu, he, hs, Option.isNone_none, if_true]
  rw [hget]
  exact ⟨_, _, _, rfl⟩

theorem slotOK_iff (rt : Runtime α) :
    slotOK rt = true ↔
      OBJECT_EPUCK_MODEL < rt.viewer.managedObjects.length ∧
        ∀ m, epuckSlot rt = some m → ∃ u, rt.heap[m]? = some u ∧ u.isEPuckModel = true := by
  unfold slotOK
  cases hs : epuckSlot rt with
  | none => simp
  | some m =>
    cases hm : rt.heap[m]? with
    | none => simp [hm]
    | some u => simp [hm]

theorem paintObject_spec (unitary : Point α → Point α) (M_PI : α) (rt : Runtime α)
    (o : PhysicalObject α) (hs : slotOK rt = true) (hd : drawable rt.heap o = true) :
    ∃ rt1 o1, paintObject unitary M_PI rt o = some (rt1, o1) ∧ StepFacts rt o rt1 o1 := by
  obtain ⟨hlen, hslot⟩ := (slotOK_iff rt).mp hs
  cases hu : o.userData with
  | some q =>
    have hne : o.userData ≠ none := by
      rw [hu]
      exact Option.some_ne_none q
    have hr := resolveObject_bound unitary rt o hne
    obtain ⟨d, hdraw⟩ := userDataDraw_some M_PI rt o q hu hd
    obtain ⟨calls, hp⟩ := paintObject_of_draw unitary M_PI rt o d (by rw [hr]; exact hdraw)
    rw [hr] at hp
    refine ⟨_, _, hp, ?_⟩
    exact
      { heap_ext := ⟨[], by simp⟩
        slot_ok := hs
        same := rfl
        out_ok := ⟨hd, hne⟩
        bound := fun _ => ⟨rfl, rfl, rfl⟩
        epuck := fun h => absurd h (by rw [hu]; exact Option.some_ne_none q)
        simple := fun h => absurd h (by rw [hu]; exact Option.some_ne_none q)
        slot_keep := fun m hm => ⟨hm, rfl⟩
        slot_new := fun _ h => absurd h (by rw [hu]; exact Option.some_ne_none q)
        slot_none := fun hn _ => ⟨hn, rfl⟩ }
  | none =>
    cases he : o.isEPuck with
    | false =>
      obtain ⟨c0, hr⟩ := resolveObject_simple unitary rt o hu he
      have hdr : drawable (rt.heap ++ [ViewerUserData.SimpleDisplayList rt.nextList true])
          ({ o with userData := some rt.heap.length } : PhysicalObject α) = true := by
        simp [drawable]
      obtain ⟨d, hdraw⟩ := userDataDraw_some M_PI
        ({ rt with
          heap := rt.heap ++ [ViewerUserData.SimpleDisplayList rt.nextList true]
          nextList := rt.nextList + 1
          calls := c0 } : Runtime α)
        ({ o with userData := some rt.heap.length } : PhysicalObject α) rt.heap.length rfl hdr
      obtain ⟨calls, hp⟩ := paintObject_of_draw unitary M_PI rt o d (by rw [hr]; exact hdraw)
      rw [hr] at hp
      refine ⟨_, _, hp, ?_⟩
      exact
        { heap_ext := ⟨_, rfl⟩
          slot_ok := by
            rw [slotOK_iff]
            refine ⟨hlen, fun m hm => ?_⟩
            obtain ⟨u, hu1, hu2⟩ := hslot m hm
            exact ⟨u, getElem?_append_of_some _ _ _ _ hu1, hu2⟩
          same := rfl
          out_ok := ⟨hdr, Option.some_ne_none _⟩
          bound := fun h => absurd hu h
          epuck := fun _ h => by simp [he] at h
          simple := fun _ _ => ⟨rfl, _, rfl⟩
          slot_keep := fun m hm => ⟨hm, by
            simp [countEPuckModels, List.countP_append, ViewerUserData.isEPuckModel]⟩
          slot_new := fun _ _ h => by simp [he] at h
          slot_none := fun hn _ => ⟨hn, by
            simp [countEPuckModels, List.countP_append, ViewerUserData.isEPuckModel]⟩ }
    | true =>
      have hw := isDifferentialWheeled_of_isEPuck o he
      cases hm : epuckSlot rt with
      | some m =>
        have hr := resolveObject_epuck_some unitary rt o m hu he hm
        obtain ⟨u, hu1, hu2⟩ := hslot m hm
        have hdr : drawable rt.heap ({ o with userData := some m } : PhysicalObject α) =
            true := by
          cases u with
          | SimpleDisplayList list flag => exact Bool.noConfusion hu2
          | EPuckModel lists textures flag =>
            simp only [drawable, hu1]
            exact hw
        obtain ⟨d, hdraw⟩ := userDataDraw_some M_PI rt
          ({ o with userData := some m } : PhysicalObject α) m rfl hdr
        obtain ⟨calls, hp⟩ := paintObject_of_draw unitary M_PI rt o d (by rw [hr]; exact hdraw)
        rw [hr] at hp
        refine ⟨_, _, hp, ?_⟩
        exact
          { heap_ext := ⟨[], by simp⟩
            slot_ok := hs
            same := rfl
            out_ok := ⟨hdr, Option.some_ne_none _⟩
            bound := fun h => absurd hu h
            epuck := fun _ _ => hm.symm
            simple := fun _ h => by simp [he] at h
            slot_keep := fun m2 hm2 => ⟨hm2, rfl⟩
            slot_new := fun hn => by
              rw [hm] at hn
              exact Option.noConfusion hn
            slot_none := fun hn => by
              rw [hm] at hn
              exact Option.noConfusion hn }
      | none =>
        obtain ⟨c0, lists, textures, hr⟩ := resolveObject_epuck_none unitary rt o hu he hm hlen
        have hget : (rt.viewer.managedObjects.set OBJECT_EPUCK_MODEL
            (some rt.heap.length)).getD OBJECT_EPUCK_MODEL none = some rt.heap.length := by
          simp [List.getD_eq_getElem?_getD, List.getElem?_set, hlen]
        have hdr : drawable (rt.heap ++ [ViewerUserData.EPuckModel lists textures false])
            ({ o with userData := some rt.heap.length } : PhysicalObject α) = true := by
          simp only [drawable, List.getElem?_concat_length]
          exact hw
        obtain ⟨d, hdraw⟩ := userDataDraw_some M_PI
          ({ rt with
            viewer :=
              { rt.viewer with
                managedObjects := rt.viewer.managedObjects.set OBJECT_EPUCK_MODEL
                  (some rt.heap.length) }
            heap := rt.heap ++ [ViewerUserData.EPuckModel lists textures false]
            nextList := rt.nextList + 5
            nextTexture := rt.nextTexture + 2
            calls := c0 } : Runtime α)
          ({ o with userData := some rt.heap.length } : PhysicalObject α) rt.heap.length rfl hdr
        obtain ⟨calls, hp⟩ := paintObject_of_draw unitary M_PI rt o d (by rw [hr]; exact hdraw)
        rw [hr] at hp
        refine ⟨_, _, hp, ?_⟩
        exact
          { heap_ext := ⟨_, rfl⟩
            slot_ok := by
              rw [slotOK_iff]
              refine ⟨by simpa using hlen, fun m2 hm2 => ?_⟩
              simp only [epuckSlot, hget] at hm2
              cases hm2
              exact ⟨_, List.getElem?_concat_length _ _, rfl⟩
            same := rfl
            out_ok := ⟨hdr, Option.some_ne_none _⟩
            bound := fun h => absurd hu h
            epuck := fun _ _ => by simp only [epuckSlot, hget]
            simple := fun _ h => by simp [he] at h
            slot_keep := fun m2 hm2 => by
              rw [hm] at hm2
              exact Option.noConfusion hm2
            slot_new := fun _ _ _ => ⟨rt.heap.length, by simp only [epuckSlot, hget], by
              simp [countEPuckModels, List.countP_append, ViewerUserData.isEPuckModel]⟩
            slot_none := fun _ h => absurd ⟨hu, he⟩ h }

theorem paintObjects_spec (unitary : Point α → Point α) (M_PI : α)
    (todo : List (PhysicalObject α)) (rt : Runtime α) (hs : slotOK rt = true)
    (hd : ∀ o ∈ todo, drawable rt.heap o = true) :
    ∃ rt1 out, paintObjects unitary M_PI rt todo = some (rt1, out) ∧
      PassFacts rt todo rt1 out := by
  induction todo generalizing rt with
  | nil =>
    refine ⟨rt, [], rfl, ?_⟩
    exact
      { heap_ext := ⟨[], by simp⟩
        slot_ok := hs
        length_eq := rfl
        out_ok := fun o ho => absurd ho (List.not_mem_nil o)
        same := fun i o o1 h => by simp at h
        bound := fun i o o1 h => by simp at h
        epuck := fun i o o1 h => by simp at h
        simple := fun i o o1 h => by simp at h
        distinct := fun i j oi oj oi1 oj1 _ h => by simp at h
        slot_keep := fun m hm => ⟨hm, rfl⟩
        slot_new := fun _ h => by
          obtain ⟨o, ho, _⟩ := h
          exact absurd ho (List.not_mem_nil o)
        frame := fun _ => ⟨rfl, rfl, rfl⟩ }
  | cons o rest ih =>
    obtain ⟨rt1, o1, hp, sf⟩ :=
      paintObject_spec unitary M_PI rt o hs (hd o (List.mem_cons_self _ _))
    obtain ⟨ext1, hext1⟩ := sf.heap_ext
    have hd1 : ∀ x ∈ rest, drawable rt1.heap x = true := by
      intro x hx
      rw [hext1]
      exact drawable_append _ _ _ (hd x (List.mem_cons_of_mem _ hx))
    obtain ⟨rt2, out, hq, pf⟩ := ih rt1 sf.slot_ok hd1
    obtain ⟨ext2, hext2⟩ := pf.heap_ext
    have hlen1 : rt.heap.length ≤ rt1.heap.length := by
      rw [hext1, List.length_append]
      exact Nat.le_add_right _ _
    refine ⟨rt2, o1 :: out, by simp [paintObjects, hp, hq], ?_⟩
    exact
      { heap_ext := ⟨ext1 ++ ext2, by rw [hext2, hext1, List.append_assoc]⟩
        slot_ok := pf.slot_ok
        length_eq := by simp [pf.length_eq]
        out_ok := by
          intro x hx
          rcases List.mem_cons.mp hx with rfl | hx
          · refine ⟨?_, sf.out_ok.2⟩
            rw [hext2]
            exact drawable_append _ _ _ sf.out_ok.1
          · exact pf.out_ok x hx
        same := by
          intro i x x1 h1 h2
          cases i with
          | zero =>
            simp only [List.getElem?_cons_zero, Option.some.injEq] at h1 h2
            subst h1
            subst h2
            exact sf.same
          | succ i =>
            simp only [List.getElem?_cons_succ] at h1 h2
            exact pf.same i x x1 h1 h2
        bound := by
          intro i x x1 h1 h2 hx
          cases i with
          | zero =>
            simp only [List.getElem?_cons_zero, Option.some.injEq] at h1 h2
            subst h1
            subst h2
            exact (sf.bound hx).1
          | succ i =>
            simp only [List.getElem?_cons_succ] at h1 h2
            exact pf.bound i x x1 h1 h2 hx
        epuck := by
          intro i x x1 h1 h2 hx he
          cases i with
          | zero =>
            simp only [List.getElem?_cons_zero, Option.some.injEq] at h1 h2
            subst h1
            subst h2
            have e1 := sf.epuck hx he
            cases hm : epuckSlot rt1 with
            | none =>
              rw [hm] at e1
              exact absurd e1 sf.out_ok.2
            | some m =>
              rw [e1, hm, (pf.slot_keep m hm).1]
          | succ i =>
            simp only [List.getElem?_cons_succ] at h1 h2
            exact pf.epuck i x x1 h1 h2 hx he
        simple := by
          intro i x x1 h1 h2 hx he
          cases i with
          | zero =>
            simp only [List.getElem?_cons_zero, Option.some.injEq] at h1 h2
            subst h1
            subst h2
            obtain ⟨e1, list, e2⟩ := sf.simple hx he
            refine ⟨rt.heap.length, list, e1, le_refl _, ?_⟩
            rw [hext2]
            apply getElem?_append_of_some
            rw [e2]
            exact List.getElem?_concat_length _ _
          | succ i =>
            simp only [List.getElem?_cons_succ] at h1 h2
            obtain ⟨a, list, e1, e2, e3⟩ := pf.simple i x x1 h1 h2 hx he
            exact ⟨a, list, e1, le_trans hlen1 e2, e3⟩
        distinct := by
          intro i j xi xj xi1 xj1 hij h1 h2 h3 h4 hxi hei hxj hej
          cases j with
          | zero => exact absurd hij (Nat.not_lt_zero _)
          | succ j =>
            simp only [List.getElem?_cons_succ] at h2 h4
            obtain ⟨a, list, e1, e2, _⟩ := pf.simple j xj xj1 h2 h4 hxj hej
            cases i with
            | zero =>
              simp only [List.getElem?_cons_zero, Option.some.injEq] at h1 h3
              subst h1
              subst h3
              obtain ⟨e4, list0, e5⟩ := sf.simple hxi hei
              rw [e4, e1]
              intro hc
              have hc2 : rt.heap.length = a := Option.some.inj hc
              rw [e5, List.length_append] at e2
              simp only [List.length_singleton] at e2
              omega
            | succ i =>
              simp only [List.getElem?_cons_succ] at h1 h3
              exact pf.distinct i j xi xj xi1 xj1 (Nat.lt_of_succ_lt_succ hij) h1 h2 h3 h4
                hxi hei hxj hej
        slot_keep := by
          intro m hm
          obtain ⟨e1, e2⟩ := sf.slot_keep m hm
          obtain ⟨e3, e4⟩ := pf.slot_keep m e1
          exact ⟨e3, e4.trans e2⟩
        slot_new := by
          intro hn hex
          by_cases h : o.userData = none ∧ o.isEPuck = true
          · obtain ⟨m, e1, e2⟩ := sf.slot_new hn h.1 h.2
            obtain ⟨e3, e4⟩ := pf.slot_keep m e1
            exact ⟨m, e3, e4.trans e2⟩
          · obtain ⟨e1, e2⟩ := sf.slot_none hn h
            obtain ⟨x, hx, hx2⟩ := hex
            rcases List.mem_cons.mp hx with rfl | hx
            · exact absurd hx2 h
            · obtain ⟨m, e3, e4⟩ := pf.slot_new e1 ⟨x, hx, hx2⟩
              exact ⟨m, e3, by rw [e4, e2]⟩
        frame := by
          intro hall
          obtain ⟨e1, e2, e3⟩ := sf.bound (hall o (List.mem_cons_self _ _))
          obtain ⟨e4, e5, e6⟩ := pf.frame (fun x hx => hall x (List.mem_cons_of_mem _ hx))
          exact ⟨by rw [e1, e4], e5.trans e2, e6.trans e3⟩ }

theorem PassFacts.transfer {rt rt1 ru ru1 : Runtime α} {todo out : List (PhysicalObject α)}
    (pf : PassFacts rt todo rt1 out) (h1 : ru.heap = rt.heap) (h2 : ru.viewer = rt.viewer)
    (h3 : ru1.heap = rt1.heap) (h4 : ru1.viewer = rt1.viewer) : PassFacts ru todo ru1 out := by
  cases rt
  cases rt1
  cases ru
  cases ru1
  simp only at h1 h2 h3 h4
  subst h1
  subst h2
  subst h3
  subst h4
  exact
    { heap_ext := pf.heap_ext
      slot_ok := pf.slot_ok
      length_eq := pf.length_eq
      out_ok := pf.out_ok
      same := pf.same
      bound := pf.bound
      epuck := pf.epuck
      simple := pf.simple
      distinct := pf.distinct
      slot_keep := pf.slot_keep
      slot_new := pf.slot_new
      frame := pf.frame }

theorem paintGL_spec (unitary : Point α → Point α) (M_PI : α) (width height : Int)
    (rt : Runtime α) (world : World α) (hs : slotOK rt = true)
    (hd : ∀ o ∈ world.objects, drawable rt.heap o = true) :
    ∃ rt1 out, paintGL unitary M_PI width height rt world =
        some (rt1, { world with objects := out }) ∧
      PassFacts rt world.objects rt1 out := by
  obtain ⟨rt1, out, hp, pf⟩ := paintObjects_spec unitary M_PI world.objects
    ({ rt with
      calls := rt.calls ++
        [ GLCall.glClear,
          GLCall.glMatrixMode GLenum.GL_PROJECTION,
          GLCall.glLoadIdentity,
          GLCall.glFrustum (-1 * ((width : α) / (height : α)))
            (1 * ((width : α) / (height : α))) (-1) 1 2 2000 ] ++
        paintGLModelview M_PI rt.viewer ++
        [ GLCall.glLightfv GLenum.GL_LIGHT0 GLenum.GL_POSITION (world.w / 2) (world.h / 2) 60 1,
          GLCall.glCallList rt.viewer.worldList ] } : Runtime α) hs hd
  refine ⟨{ rt1 with calls := rt1.calls ++ sceneCompletedHook }, out, ?_, ?_⟩
  · unfold paintGL
    simp only [hp]
  · exact pf.transfer rfl rfl rfl rfl

theorem paintGLTimes_bound (unitary : Point α → Point α) (M_PI : α) (width height : Int)
    (world : World α) (k : Nat) (rt : Runtime α) (hs : slotOK rt = true)
    (hd : ∀ o ∈ world.objects, drawable rt.heap o = true ∧ o.userData ≠ none) :
    ∃ rt1, paintGLTimes unitary M_PI width height k rt world = some (rt1, world) ∧
      rt1.heap = rt.heap ∧ rt1.viewer = rt.viewer := by
  induction k generalizing rt with
  | zero => exact ⟨rt, rfl, rfl, rfl⟩
  | succ k ih =>
    obtain ⟨rt1, out, hp, pf⟩ := paintGL_spec unitary M_PI width height rt world hs
      (fun o ho => (hd o ho).1)
    obtain ⟨e1, e2, e3⟩ := pf.frame (fun o ho => (hd o ho).2)
    have hw : ({ world with objects := out } : World α) = world := by
      rw [e1]
    rw [hw] at hp
    obtain ⟨rt2, hq, e4, e5⟩ := ih rt1 pf.slot_ok (fun o ho => by
      rw [e2]
      exact hd o ho)
    refine ⟨rt2, ?_, e4.trans e2, e5.trans e3⟩
    simp only [paintGLTimes, hp]
    exact hq

theorem paintGLTimes_spec (unitary : Point α → Point α) (M_PI : α) (width height : Int)
    (rt : Runtime α) (world : World α) (k : Nat) (hk : 1 ≤ k) (hs : slotOK rt = true)
    (hd : ∀ o ∈ world.objects, drawable rt.heap o = true) :
    ∃ rt1 out, paintGLTimes unitary M_PI width height k rt world =
        some (rt1, { world with objects := out }) ∧
      PassFacts rt world.objects rt1 out := by
  obtain ⟨k, rfl⟩ : ∃ n, k = n + 1 := ⟨k - 1, by omega⟩
  obtain ⟨rt1, out, hp, pf⟩ := paintGL_spec unitary M_PI width height rt world hs hd
  obtain ⟨rt2, hq, e1, e2⟩ := paintGLTimes_bound unitary M_PI width height
    ({ world with objects := out } : World α) k rt1 pf.slot_ok pf.out_ok
  refine ⟨rt2, out, ?_, pf.transfer rfl rfl e1 e2⟩
  simp only [paintGLTimes, hp]
  exact hq

theorem getElem?_of_length_eq {β : Type} (l1 l2 : List β) (i : Nat) (b : β)
    (hlen : l1.length = l2.length) (h : l1[i]? = some b) : ∃ c, l2[i]? = some c := by
  have hi := lt_length_of_getElem? l1 i b h
  rw [hlen] at hi
  exact ⟨l2[i], List.getElem?_eq_getElem hi⟩

end PassLemmas

/-- C1: starting from the state set by the constructor (pitch = 3π/8, for any
world size), after every finite sequence of press, release, move and wheel
events the stored pitch lies in [-π/2, π/2], over the real numbers. -/
theorem pitch_stays_clamped (w h : ℝ) (es : List InputEvent) :
    -Real.pi / 2 ≤
        (handleEvents Real.pi Real.cos Real.sin (ViewerWidget.ctor Real.pi w h) es).pitch ∧
      (handleEvents Real.pi Real.cos Real.sin (ViewerWidget.ctor Real.pi w h) es).pitch ≤
        Real.pi / 2 := by
  apply handleEvents_pitch_mem Real.pi Real.cos Real.sin Real.pi_pos.le
  have hp := Real.pi_pos
  simp only [ViewerWidget.ctor]
  constructor <;> linarith

/-- C5 (counterexample): on the armed widget, a move event with only Control
held and displacement (1, 0) changes the yaw. -/
theorem control_drag_changes_yaw :
    ControlModifier ≠ 0 ∧ ControlModifier &&& ShiftModifier = 0 ∧
      (mousePressEvent (ViewerWidget.ctor Real.pi 100 50) MouseButton.RightButton
        ⟨0, 0⟩).mouseGrabbed = true ∧
      (mouseMoveEvent Real.pi Real.cos Real.sin
          (mousePressEvent (ViewerWidget.ctor Real.pi 100 50) MouseButton.RightButton ⟨0, 0⟩)
          ⟨1, 0⟩ ControlModifier).yaw ≠
        (mousePressEvent (ViewerWidget.ctor Real.pi 100 50) MouseButton.RightButton
          ⟨0, 0⟩).yaw := by
  refine ⟨by decide, by decide, rfl, ?_⟩
  have hc : ControlModifier &&& ShiftModifier = 0 := by decide
  rw [mouseMoveEvent_orbit _ _ _ _ _ _ hc rfl]
  simp [mousePressEvent, ViewerWidget.ctor]

/-- C5 (amended): a move event whose modifier set does not contain Shift,
empty or not, is handled as the drag with no modifier: pan and altitude are
unchanged and, when the widget is armed, yaw grows by 0.01 dx and pitch
becomes clamp(pitch + 0.01 dy, -π/2, π/2); a wheel event whose modifier set does
not contain Shift leaves the whole widget state unchanged. -/
theorem non_shift_events_effect (v : ViewerWidget ℝ) (pos : QPoint) (delta : Int) (m : Nat)
    (hm : m &&& ShiftModifier = 0) :
    mouseMoveEvent Real.pi Real.cos Real.sin v pos m =
        mouseMoveEvent Real.pi Real.cos Real.sin v pos NoModifier ∧
      (mouseMoveEvent Real.pi Real.cos Real.sin v pos m).pos = v.pos ∧
      (mouseMoveEvent Real.pi Real.cos Real.sin v pos m).altitude = v.altitude ∧
      (v.mouseGrabbed = true →
        (mouseMoveEvent Real.pi Real.cos Real.sin v pos m).yaw =
            v.yaw + (1 / 100) * ((pos.x - v.mouseGrabPos.x : Int) : ℝ) ∧
          (mouseMoveEvent Real.pi Real.cos Real.sin v pos m).pitch =
            clamp (v.pitch + (1 / 100) * ((pos.y - v.mouseGrabPos.y : Int) : ℝ))
              (-Real.pi / 2) (Real.pi / 2)) ∧
      wheelEvent v delta m = v := by
  refine ⟨?_, ?_, ?_, ?_, ?_⟩
  · simp [mouseMoveEvent, hm, noModifier_land]
  · simp only [mouseMoveEvent, hm]
    split_ifs <;> simp_all
  · simp only [mouseMoveEvent, hm]
    split_ifs <;> simp_all
  · intro hg
    rw [mouseMoveEvent_orbit _ _ _ _ _ _ hm hg]
    exact ⟨rfl, rfl⟩
  · simp [wheelEvent, hm]

/-- Instance of the amended C5 at a Control-only drag and wheel turn. -/
theorem non_shift_events_effect_witness :
    ControlModifier &&& ShiftModifier = 0 ∧
      wheelEvent (ViewerWidget.ctor Real.pi 100 50) 120 ControlModifier =
        ViewerWidget.ctor Real.pi 100 50 :=
  ⟨by decide,
    (non_shift_events_effect (ViewerWidget.ctor Real.pi 100 50) ⟨1, 0⟩ 120 ControlModifier
      (by decide)).2.2.2.2⟩

/-- C7 (counterexample): from the constructor state, armed at (0, 0), the
unmodified drag to (0, 100) and back to (0, 0) has zero total displacement, yet
the pitch ends at π/2 - 1 instead of 3π/8. -/
theorem zero_sum_drag_drifts :
    (mousePressEvent (ViewerWidget.ctor Real.pi 100 50) MouseButton.RightButton
        ⟨0, 0⟩).mouseGrabbed = true ∧
      ((dragDeltas ⟨0, 0⟩ [⟨0, 100⟩, ⟨0, 0⟩]).map QPoint.x).sum = 0 ∧
      ((dragDeltas ⟨0, 0⟩ [⟨0, 100⟩, ⟨0, 0⟩]).map QPoint.y).sum = 0 ∧
      -Real.pi / 2 ≤ (mousePressEvent (ViewerWidget.ctor Real.pi 100 50)
        MouseButton.RightButton ⟨0, 0⟩).pitch ∧
      (mousePressEvent (ViewerWidget.ctor Real.pi 100 50)
        MouseButton.RightButton ⟨0, 0⟩).pitch ≤ Real.pi / 2 ∧
      (handleEvents Real.pi Real.cos Real.sin
          (mousePressEvent (ViewerWidget.ctor Real.pi 100 50) MouseButton.RightButton ⟨0, 0⟩)
          (dragEvents [⟨0, 100⟩, ⟨0, 0⟩])).pitch = Real.pi / 2 - 1 ∧
      (handleEvents Real.pi Real.cos Real.sin
          (mousePressEvent (ViewerWidget.ctor Real.pi 100 50) MouseButton.RightButton ⟨0, 0⟩)
          (dragEvents [⟨0, 100⟩, ⟨0, 0⟩])).pitch ≠
        (mousePressEvent (ViewerWidget.ctor Real.pi 100 50) MouseButton.RightButton
          ⟨0, 0⟩).pitch := by
  have h3 := Real.pi_gt_three
  have h4 := Real.pi_le_four
  have hrun : (handleEvents Real.pi Real.cos Real.sin
      (mousePressEvent (ViewerWidget.ctor Real.pi 100 50) MouseButton.RightButton ⟨0, 0⟩)
      (dragEvents [⟨0, 100⟩, ⟨0, 0⟩])).pitch = Real.pi / 2 - 1 := by
    have e1 : clamp (3 * Real.pi / 8 + 1 / 100 * (((100 : Int) - 0 : Int) : ℝ))
        (-Real.pi / 2) (Real.pi / 2) = Real.pi / 2 := by
      unfold clamp
      rw [if_neg (by push_cast; linarith), if_pos (by push_cast; linarith)]
    have e2 : clamp (Real.pi / 2 + 1 / 100 * (((0 : Int) - 100 : Int) : ℝ))
        (-Real.pi / 2) (Real.pi / 2) = Real.pi / 2 - 1 := by
      rw [clamp_of_mem _ _ _ (by push_cast; linarith) (by push_cast; linarith)]
      push_cast
      ring
    simp only [dragEvents, List.map, handleEvents, handleEvent]
    rw [mouseMoveEvent_orbit _ _ _ _ _ _ noModifier_land rfl]
    rw [mouseMoveEvent_orbit _ _ _ _ _ _ noModifier_land rfl]
    simp only [mousePressEvent, ViewerWidget.ctor, if_true]
    rw [e1, e2]
  refine ⟨rfl, by decide, by decide, ?_, ?_, hrun, ?_⟩
  · simp only [mousePressEvent, ViewerWidget.ctor, if_true]
    linarith
  · simp only [mousePressEvent, ViewerWidget.ctor, if_true]
    linarith
  · rw [hrun]
    simp only [mousePressEvent, ViewerWidget.ctor, if_true]
    intro h
    linarith

/-- C7 (amended): on an armed widget, a sequence of unmodified move events
whose x- and y-displacements both sum to zero, repeated any number `n` of
times, restores yaw, pan and altitude exactly, over the real numbers; it also
restores the pitch when none of the intermediate values
pitch + 0.01 (p.y - g.y) leaves [-π/2, π/2], that is when the clamp never
saturates. -/
theorem zero_sum_drag_no_drift (v : ViewerWidget ℝ) (ps : List QPoint) (n : Nat)
    (hg : v.mouseGrabbed = true)
    (hx : ((dragDeltas v.mouseGrabPos ps).map QPoint.x).sum = 0)
    (hy : ((dragDeltas v.mouseGrabPos ps).map QPoint.y).sum = 0) :
    (handleEvents Real.pi Real.cos Real.sin v (repeatEvents n (dragEvents ps))).yaw = v.yaw ∧
      (handleEvents Real.pi Real.cos Real.sin v (repeatEvents n (dragEvents ps))).pos = v.pos ∧
      (handleEvents Real.pi Real.cos Real.sin v (repeatEvents n (dragEvents ps))).altitude =
        v.altitude ∧
      ((∀ p ∈ ps,
          -Real.pi / 2 ≤ v.pitch + (1 / 100) * ((p.y - v.mouseGrabPos.y : Int) : ℝ) ∧
            v.pitch + (1 / 100) * ((p.y - v.mouseGrabPos.y : Int) : ℝ) ≤ Real.pi / 2) →
        (handleEvents Real.pi Real.cos Real.sin v (repeatEvents n (dragEvents ps))).pitch =
          v.pitch) := by
  obtain ⟨q, hq, hs⟩ := handleEvents_repeat_drag Real.pi Real.cos Real.sin ps n v hg hx hy
  rw [hq]
  exact ⟨rfl, rfl, rfl, fun hall => hs hall⟩

/-- Instance of the amended C7: a drag of one pixel down and back up, twice,
from pitch 0. -/
theorem zero_sum_drag_no_drift_witness :
    (handleEvents Real.pi Real.cos Real.sin
        { mouseGrabbed := true, mouseGrabPos := ⟨0, 0⟩, worldList := 0, worldTexture := 0,
          managedObjects := [none], yaw := 0, pitch := 0, pos := ⟨0, 0⟩, altitude := 0 }
        (repeatEvents 2 (dragEvents [⟨0, 1⟩, ⟨0, 0⟩]))).pitch = 0 :=
  (zero_sum_drag_no_drift
    { mouseGrabbed := true, mouseGrabPos := ⟨0, 0⟩, worldList := 0, worldTexture := 0,
      managedObjects := [none], yaw := 0, pitch := 0, pos := ⟨0, 0⟩, altitude := 0 }
    [⟨0, 1⟩, ⟨0, 0⟩] 2 rfl (by decide) (by decide)).2.2.2 (by
      have h3 := Real.pi_gt_three
      intro p hp
      simp only [List.mem_cons, List.mem_singleton, List.not_mem_nil, or_false] at hp
      rcases hp with rfl | rfl
      · constructor <;> norm_num <;> linarith
      · constructor <;> norm_num <;> linarith)

/-- C9: for an object with a polygon boundary of n ≥ 1 points p and height h,
the calls that renderSimpleObject adds to those issued before it are some
calls `pre`, then the calls of the extension hook, then glEndList; and `pre`,
what is emitted before the hook, consists of exactly n side quads followed by
exactly one triangle fan: quad i has the vertices (p[i],0), (p[i+1 mod n],0),
(p[i+1 mod n],h), (p[i],h) with the texture corners (0.751390,0.248609),
(0.248609,0.248609), (0.001739,0.001739), (0.998266,0.001739), and the fan has
the n vertices (p[i].x, p[i].y, h) in boundary order. -/
theorem polygon_footprint_geometry {α : Type} [LinearOrderedField α]
    (unitary : Point α → Point α) (rt : Runtime α) (object : PhysicalObject α)
    (p : List (Point α)) (hp : object.boundingSurface = some p) (hn : 1 ≤ p.length) :
    ∃ pre : List (GLCall α),
      (renderSimpleObject unitary rt object).1.calls =
          rt.calls ++ pre ++ renderObjectHook (renderSimpleObject unitary rt object).2 ++
            [GLCall.glEndList] ∧
        primitivesOf pre =
          (List.range p.length).map (fun i =>
              wallQuad (p.getD i ⟨0, 0⟩) (p.getD ((i + 1) % p.length) ⟨0, 0⟩)
                object.height) ++
            [⟨GLenum.GL_TRIANGLE_FAN, p.map (fun q => ⟨q.x, q.y, object.height,
              some (998266 / 1000000, 1739 / 1000000)⟩)⟩] ∧
        (primitivesOf pre).length = p.length + 1 ∧
        ((primitivesOf pre).filter (fun q => q.mode = GLenum.GL_QUADS)).length = p.length ∧
        ((primitivesOf pre).map
            (fun q => q.vertices.map (fun v => (v.x, v.y, v.z)))).getLast? =
          some (p.map (fun q => (q.x, q.y, object.height))) := by
  have hshape := primitivesOf_renderSimpleObjectShape unitary
    ({ object with userData := some rt.heap.length } : PhysicalObject α) p hp hn
  have hpre : primitivesOf
      ([GLCall.glGenLists 1, GLCall.glNewList rt.nextList GLenum.GL_COMPILE] ++
        renderSimpleObjectShape unitary
          ({ object with userData := some rt.heap.length } : PhysicalObject α)) =
      (List.range p.length).map (fun i =>
          wallQuad (p.getD i ⟨0, 0⟩) (p.getD ((i + 1) % p.length) ⟨0, 0⟩) object.height) ++
        [⟨GLenum.GL_TRIANGLE_FAN, p.map (fun q => ⟨q.x, q.y, object.height,
          some (998266 / 1000000, 1739 / 1000000)⟩)⟩] := by
    rw [← hshape]
    simp [primitivesOf, assemble]
  refine ⟨[GLCall.glGenLists 1, GLCall.glNewList rt.nextList GLenum.GL_COMPILE] ++
    renderSimpleObjectShape unitary
      ({ object with userData := some rt.heap.length } : PhysicalObject α), ?_, hpre, ?_, ?_, ?_⟩
  · simp [renderSimpleObject, newSimpleDisplayList, renderSimpleObjectCalls]
  · rw [hpre]
    simp
  · rw [hpre]
    simp [List.filter_append, wallQuad, List.filter_map, Function.comp_def]
  · rw [hpre]
    simp

/-- Instance of C9: the triangle (0,0), (4,0), (0,3) with height 5, over the
rationals, rendered in the runtime of a freshly constructed widget, gives 3
side quads and one fan of 3 vertices before the hook. -/
theorem polygon_footprint_geometry_witness :
    ∃ pre : List (GLCall ℚ),
      (renderSimpleObject (fun q : Point ℚ => q)
          { viewer := ViewerWidget.ctor (22 / 7) 100 50, heap := [], nextList := 1,
            nextTexture := 1, calls := [GLCall.glClear] }
          { pos := ⟨0, 0⟩, angle := 0, height := 5, r := 0, color := ⟨1, 1, 1, 1⟩,
            boundingSurface := some [⟨0, 0⟩, ⟨4, 0⟩, ⟨0, 3⟩], userData := none,
            dynamicType := DynamicType.PhysicalObject }).1.calls =
          [GLCall.glClear] ++ pre ++ [] ++ [GLCall.glEndList] ∧
        (primitivesOf pre).length = 3 + 1 ∧
        ((primitivesOf pre).filter (fun q => q.mode = GLenum.GL_QUADS)).length = 3 ∧
        ((primitivesOf pre).map
            (fun q => q.vertices.map (fun v => (v.x, v.y, v.z)))).getLast? =
          some [(0, 0, 5), (4, 0, 5), (0, 3, 5)] := by
  obtain ⟨pre, h1, _, h3, h4, h5⟩ :=
    polygon_footprint_geometry (fun q : Point ℚ => q)
      { viewer := ViewerWidget.ctor (22 / 7) 100 50, heap := [], nextList := 1,
        nextTexture := 1, calls := [GLCall.glClear] }
      { pos := ⟨0, 0⟩, angle := 0, height := 5, r := 0, color := ⟨1, 1, 1, 1⟩,
        boundingSurface := some [⟨0, 0⟩, ⟨4, 0⟩, ⟨0, 3⟩], userData := none,
        dynamicType := DynamicType.PhysicalObject }
      [⟨0, 0⟩, ⟨4, 0⟩, ⟨0, 3⟩] rfl (by decide)
  exact ⟨pre, h1, h3, h4, h5⟩

/-- C6 (counterexample): at the odometry d = -c/2 the angle is -180 degrees,
and one wheel circumference later, at d + c = c/2, it is 180 degrees: the
angle is not periodic in d with period c. -/
theorem wheel_angle_not_periodic :
    wheelAngle Real.pi (-(wheelCirc Real.pi) / 2) = -180 ∧
      wheelAngle Real.pi (-(wheelCirc Real.pi) / 2 + wheelCirc Real.pi) = 180 ∧
      wheelAngle Real.pi (-(wheelCirc Real.pi) / 2 + wheelCirc Real.pi) ≠
        wheelAngle Real.pi (-(wheelCirc Real.pi) / 2) := by
  have hc := wheelCirc_pos Real.pi Real.pi_pos
  have h1 : fmod (-(wheelCirc Real.pi) / 2) (wheelCirc Real.pi) = -(wheelCirc Real.pi) / 2 :=
    fmod_of_mid _ _ hc (by linarith) (by linarith)
  have h2 : fmod (-(wheelCirc Real.pi) / 2 + wheelCirc Real.pi) (wheelCirc Real.pi) =
      -(wheelCirc Real.pi) / 2 + wheelCirc Real.pi := by
    rw [fmod_add_period_of_mid _ _ hc (by linarith) (by linarith), h1]
  have e1 : wheelAngle Real.pi (-(wheelCirc Real.pi) / 2) = -180 := by
    unfold wheelAngle
    rw [h1]
    field_simp
    ring
  have e2 : wheelAngle Real.pi (-(wheelCirc Real.pi) / 2 + wheelCirc Real.pi) = 180 := by
    unfold wheelAngle
    rw [h2]
    field_simp
    ring
  refine ⟨e1, e2, ?_⟩
  rw [e1, e2]
  norm_num

/-- C6 (amended): for an E-puck with odometry l and r, EPuckModel::draw
succeeds and its two wheel rotations are by the angles of l and r, where the
angle of an odometry d is (fmod(d, c) / c) * 360 with c = 2 π 2.1; this angle
lies strictly between -360 and 360; it has the same value at d + c when d ≥ 0
or d ≤ -c, and the value 360 larger (the same rotation) when -c < d < 0. -/
theorem wheel_rotation_mapping (lists textures : List GLuint) (object : PhysicalObject ℝ)
    (l r : ℝ) (hobj : object.dynamicType = DynamicType.EPuck l r) :
    (∃ calls, EPuckModel.draw Real.pi lists textures object = some calls ∧
        calls.filterMap rotationAngle = [wheelAngle Real.pi l, wheelAngle Real.pi r]) ∧
      ∀ d : ℝ,
        wheelAngle Real.pi d = fmod d (wheelCirc Real.pi) / wheelCirc Real.pi * 360 ∧
          -360 < wheelAngle Real.pi d ∧ wheelAngle Real.pi d < 360 ∧
          (0 ≤ d ∨ d ≤ -wheelCirc Real.pi →
            wheelAngle Real.pi (d + wheelCirc Real.pi) = wheelAngle Real.pi d) ∧
          (-wheelCirc Real.pi < d ∧ d < 0 →
            wheelAngle Real.pi (d + wheelCirc Real.pi) = wheelAngle Real.pi d + 360) := by
  have hc := wheelCirc_pos Real.pi Real.pi_pos
  constructor
  · refine ⟨_, by rw [EPuckModel.draw, hobj], ?_⟩
    simp [rotationAngle, wheelAngle]
  · intro d
    refine ⟨wheelAngle_eq _ _, (wheelAngle_bounds _ d Real.pi_pos).1,
      (wheelAngle_bounds _ d Real.pi_pos).2, ?_, ?_⟩
    · intro h
      unfold wheelAngle
      rcases h with h | h
      · rw [fmod_add_period_of_nonneg d _ hc h]
      · rw [fmod_add_period_of_le d _ hc h]
    · intro h
      unfold wheelAngle
      rw [fmod_add_period_of_mid d _ hc h.1 h.2]
      field_simp
      ring

/-- Instance of the amended C6 at an E-puck with odometry 1 and 2. -/
theorem wheel_rotation_mapping_witness :
    -360 < wheelAngle Real.pi 1 ∧ wheelAngle Real.pi 1 < 360 :=
  ⟨((wheel_rotation_mapping [] []
      { pos := ⟨0, 0⟩, angle := 0, height := 5, r := 0, color := ⟨1, 1, 1, 1⟩,
        boundingSurface := none, userData := none, dynamicType := DynamicType.EPuck 1 2 }
      1 2 rfl).2 1).2.1,
    ((wheel_rotation_mapping [] []
      { pos := ⟨0, 0⟩, angle := 0, height := 5, r := 0, color := ⟨1, 1, 1, 1⟩,
        boundingSurface := none, userData := none, dynamicType := DynamicType.EPuck 1 2 }
      1 2 rfl).2 1).2.2.1⟩

section ViewLemmas

variable {α : Type} [Field α]

theorem rotationMatrix_x (M_PI : α) (cos sin : α → α) (angle : α) :
    rotationMatrix M_PI cos sin angle 1 0 0 = Rx M_PI cos sin angle := by
  ext i j
  fin_cases i <;> fin_cases j <;> simp [rotationMatrix, Rx]

theorem rotationMatrix_z (M_PI : α) (cos sin : α → α) (angle : α) :
    rotationMatrix M_PI cos sin angle 0 0 1 = Rz M_PI cos sin angle := by
  ext i j
  fin_cases i <;> fin_cases j <;> simp [rotationMatrix, Rz]

theorem modelview_eq (M_PI : α) (cos sin : α → α) (v : ViewerWidget α) :
    modelview M_PI cos sin v =
      Rx M_PI cos sin (-90) * Rx M_PI cos sin (rad2deg M_PI * v.pitch) * Rz M_PI cos sin 90 *
        Rz M_PI cos sin (rad2deg M_PI * v.yaw) *
        translationMatrix v.pos.x v.pos.y (-v.altitude) := by
  simp [modelview, paintGLModelview, applyMatrixCall, rotationMatrix_x, rotationMatrix_z]

end ViewLemmas

/-- C4 (counterexample): for the camera with yaw 0, pitch 0, pan position
(1, 0) and altitude 0 the loaded modelview matrix has -1 in row 2 of its
translation column, while the matrix with the translation (-pan.x, -pan.y,
-altitude) has 1 there, so the two matrices differ. -/
theorem modelview_translation_not_negated :
    modelview Real.pi Real.cos Real.sin
        { mouseGrabbed := false, mouseGrabPos := ⟨0, 0⟩, worldList := 0, worldTexture := 0,
          managedObjects := [none], yaw := 0, pitch := 0, pos := ⟨1, 0⟩, altitude := 0 } 2 3 =
        -1 ∧
      (Rx Real.pi Real.cos Real.sin (-90) * Rx Real.pi Real.cos Real.sin (0 * 180 / Real.pi) *
          Rz Real.pi Real.cos Real.sin 90 * Rz Real.pi Real.cos Real.sin (0 * 180 / Real.pi) *
          translationMatrix (-1) (-0) (-0) : Matrix (Fin 4) (Fin 4) ℝ) 2 3 = 1 ∧
      modelview Real.pi Real.cos Real.sin
          { mouseGrabbed := false, mouseGrabPos := ⟨0, 0⟩, worldList := 0, worldTexture := 0,
            managedObjects := [none], yaw := 0, pitch := 0, pos := ⟨1, 0⟩, altitude := 0 } ≠
        Rx Real.pi Real.cos Real.sin (-90) * Rx Real.pi Real.cos Real.sin (0 * 180 / Real.pi) *
          Rz Real.pi Real.cos Real.sin 90 * Rz Real.pi Real.cos Real.sin (0 * 180 / Real.pi) *
          translationMatrix (-1) (-0) (-0) := by
  have e2 : (90 : ℝ) * Real.pi / 180 = Real.pi / 2 := by ring
  have e3 : -((90 : ℝ) * Real.pi) / 180 = -(Real.pi / 2) := by ring
  have h1 : modelview Real.pi Real.cos Real.sin
      { mouseGrabbed := false, mouseGrabPos := ⟨0, 0⟩, worldList := 0, worldTexture := 0,
        managedObjects := [none], yaw := 0, pitch := 0, pos := ⟨1, 0⟩, altitude := 0 } 2 3 =
      -1 := by
    rw [modelview_eq]
    simp [Matrix.mul_apply, Fin.sum_univ_four, Rx, Rz, translationMatrix, rad2deg]
    simp [e2, e3]
  have h2 : (Rx Real.pi Real.cos Real.sin (-90) *
      Rx Real.pi Real.cos Real.sin (0 * 180 / Real.pi) *
      Rz Real.pi Real.cos Real.sin 90 * Rz Real.pi Real.cos Real.sin (0 * 180 / Real.pi) *
      translationMatrix (-1) (-0) (-0) : Matrix (Fin 4) (Fin 4) ℝ) 2 3 = 1 := by
    simp [Matrix.mul_apply, Fin.sum_univ_four, Rx, Rz, translationMatrix]
    simp [e2, e3]
  refine ⟨h1, h2, fun h => ?_⟩
  rw [h] at h1
  rw [h1] at h2
  norm_num at h2

/-- C4 (amended): for every camera state the modelview matrix loaded by
paintGL is Rx(-90°) · Rx(pitch·180/π °) · Rz(90°) · Rz(yaw·180/π °) ·
T(pos.x, pos.y, -altitude): the stored position `pos` is applied as it is, not
negated, and only the altitude is negated. -/
theorem view_transform_composition (v : ViewerWidget ℝ) :
    modelview Real.pi Real.cos Real.sin v =
      Rx Real.pi Real.cos Real.sin (-90) *
        Rx Real.pi Real.cos Real.sin (v.pitch * 180 / Real.pi) *
        Rz Real.pi Real.cos Real.sin 90 *
        Rz Real.pi Real.cos Real.sin (v.yaw * 180 / Real.pi) *
        translationMatrix v.pos.x v.pos.y (-v.altitude) := by
  rw [modelview_eq]
  have e1 : rad2deg Real.pi * v.pitch = v.pitch * 180 / Real.pi := by
    unfold rad2deg
    ring
  have e2 : rad2deg Real.pi * v.yaw = v.yaw * 180 / Real.pi := by
    unfold rad2deg
    ring
  rw [e1, e2]

/-- C3: the resolve step of paintGL on an object whose userData is not null
returns the runtime (heap of resources, managedObjects, display list and
texture counters, issued calls) and the object unchanged; hence, the slot
OBJECT_EPUCK_MODEL existing, a second resolve after a first one changes nothing
and creates no resource. -/
theorem resolve_idempotent {α : Type} [LinearOrderedField α] [FloorRing α]
    (unitary : Point α → Point α) (rt : Runtime α) (object : PhysicalObject α) :
    (object.userData ≠ none → resolveObject unitary rt object = (rt, object)) ∧
      (OBJECT_EPUCK_MODEL < rt.viewer.managedObjects.length →
        (resolveObject unitary rt object).2.userData ≠ none ∧
          resolveObject unitary (resolveObject unitary rt object).1
              (resolveObject unitary rt object).2 =
            resolveObject unitary rt object) := by
  refine ⟨resolveObject_bound unitary rt object, fun hl => ?_⟩
  have hne : (resolveObject unitary rt object).2.userData ≠ none := by
    cases hu : object.userData with
    | some q =>
      rw [resolveObject_bound unitary rt object (by rw [hu]; exact Option.some_ne_none q), hu]
      exact Option.some_ne_none q
    | none =>
      cases he : object.isEPuck with
      | false =>
        obtain ⟨c, hr⟩ := resolveObject_simple unitary rt object hu he
        rw [hr]
        exact Option.some_ne_none _
      | true =>
        cases hm : epuckSlot rt with
        | some m =>
          rw [resolveObject_epuck_some unitary rt object m hu he hm]
          exact Option.some_ne_none _
        | none =>
          obtain ⟨c, l, t, hr⟩ := resolveObject_epuck_none unitary rt object hu he hm hl
          rw [hr]
          exact Option.some_ne_none _
  exact ⟨hne, resolveObject_bound unitary _ _ hne⟩

/-- Instance of C3: resolving an unbound E-puck twice in the runtime of a
freshly constructed widget. -/
theorem resolve_idempotent_witness :
    (resolveObject (fun q : Point ℚ => q)
        { viewer := ViewerWidget.ctor (22 / 7) 100 50, heap := [], nextList := 1,
          nextTexture := 1, calls := [] }
        { pos := ⟨0, 0⟩, angle := 0, height := 5, r := 2, color := ⟨1, 1, 1, 1⟩,
          boundingSurface := none, userData := none,
          dynamicType := DynamicType.EPuck 0 0 }).2.userData ≠ none ∧
      resolveObject (fun q : Point ℚ => q)
          (resolveObject (fun q : Point ℚ => q)
            { viewer := ViewerWidget.ctor (22 / 7) 100 50, heap := [], nextList := 1,
              nextTexture := 1, calls := [] }
            { pos := ⟨0, 0⟩, angle := 0, height := 5, r := 2, color := ⟨1, 1, 1, 1⟩,
              boundingSurface := none, userData := none,
              dynamicType := DynamicType.EPuck 0 0 }).1
          (resolveObject (fun q : Point ℚ => q)
            { viewer := ViewerWidget.ctor (22 / 7) 100 50, heap := [], nextList := 1,
              nextTexture := 1, calls := [] }
            { pos := ⟨0, 0⟩, angle := 0, height := 5, r := 2, color := ⟨1, 1, 1, 1⟩,
              boundingSurface := none, userData := none,
              dynamicType := DynamicType.EPuck 0 0 }).2 =
        resolveObject (fun q : Point ℚ => q)
          { viewer := ViewerWidget.ctor (22 / 7) 100 50, heap := [], nextList := 1,
            nextTexture := 1, calls := [] }
          { pos := ⟨0, 0⟩, angle := 0, height := 5, r := 2, color := ⟨1, 1, 1, 1⟩,
            boundingSurface := none, userData := none,
            dynamicType := DynamicType.EPuck 0 0 } :=
  (resolve_idempotent (fun q : Point ℚ => q)
    { viewer := ViewerWidget.ctor (22 / 7) 100 50, heap := [], nextList := 1,
      nextTexture := 1, calls := [] }
    { pos := ⟨0, 0⟩, angle := 0, height := 5, r := 2, color := ⟨1, 1, 1, 1⟩,
      boundingSurface := none, userData := none,
      dynamicType := DynamicType.EPuck 0 0 }).2
    (by simp [ViewerWidget.ctor, OBJECT_EPUCK_MODEL, MANAGED_OBJECT_COUNT])

/-- C2: in a runtime whose managedObjects are all null (a freshly constructed
viewer) and a world whose objects all have a null userData and include at
least one E-puck, any number k ≥ 1 of render passes succeeds, constructs
exactly one EPuckModel in total, leaves every object as it was except for its
userData, and binds every E-puck of the world to the one object recorded in
managedObjects[OBJECT_EPUCK_MODEL], which is an EPuckModel. -/
theorem shared_resource_singleton {α : Type} [LinearOrderedField α] [FloorRing α]
    (unitary : Point α → Point α) (M_PI : α) (width height : Int) (rt : Runtime α)
    (world : World α) (k : Nat)
    (hfresh : rt.viewer.managedObjects = List.replicate MANAGED_OBJECT_COUNT none)
    (hnull : ∀ o ∈ world.objects, o.userData = none) (hk : 1 ≤ k)
    (hN : ∃ o ∈ world.objects, o.isEPuck = true) :
    ∃ rt1 out m,
      paintGLTimes unitary M_PI width height k rt world =
          some (rt1, { world with objects := out }) ∧
        countEPuckModels rt1.heap = countEPuckModels rt.heap + 1 ∧
        rt1.viewer.managedObjects.getD OBJECT_EPUCK_MODEL none = some m ∧
        (∃ u, rt1.heap[m]? = some u ∧ u.isEPuckModel = true) ∧
        out.length = world.objects.length ∧
        ∀ (i : Nat) (o o1 : PhysicalObject α), world.objects[i]? = some o → out[i]? = some o1 →
          o1 = { o with userData := o1.userData } ∧
            (o.isEPuck = true → o1.userData = some m) := by
  have hslot : epuckSlot rt = none := by
    simp [epuckSlot, hfresh, MANAGED_OBJECT_COUNT, OBJECT_EPUCK_MODEL]
  have hs : slotOK rt = true := by
    rw [slotOK_iff]
    refine ⟨by simp [hfresh, MANAGED_OBJECT_COUNT, OBJECT_EPUCK_MODEL], fun m hm => ?_⟩
    rw [hslot] at hm
    exact Option.noConfusion hm
  have hd : ∀ o ∈ world.objects, drawable rt.heap o = true := by
    intro o ho
    simp [drawable, hnull o ho]
  obtain ⟨rt1, out, hp, pf⟩ :=
    paintGLTimes_spec unitary M_PI width height rt world k hk hs hd
  obtain ⟨x, hx, hxe⟩ := hN
  obtain ⟨m, hm, hcount⟩ := pf.slot_new hslot ⟨x, hx, hnull x hx, hxe⟩
  refine ⟨rt1, out, m, hp, hcount, hm, ((slotOK_iff rt1).mp pf.slot_ok).2 m hm,
    pf.length_eq, ?_⟩
  intro i o o1 h1 h2
  refine ⟨pf.same i o o1 h1 h2, fun he => ?_⟩
  rw [pf.epuck i o o1 h1 h2 (hnull o (List.getElem?_mem h1)) he]
  exact hm

/-- Instance of C2: two passes over a world of two unbound E-pucks. -/
theorem shared_resource_singleton_witness :
    ∃ (rt1 : Runtime ℚ) (out : List (PhysicalObject ℚ)) (m : Ptr),
      paintGLTimes (fun q : Point ℚ => q) (22 / 7) 640 480 2
          { viewer := ViewerWidget.ctor (22 / 7) 100 50, heap := [], nextList := 1,
            nextTexture := 1, calls := [] }
          { w := 100, h := 50, useWalls := true,
            objects :=
              [ { pos := ⟨0, 0⟩, angle := 0, height := 5, r := 2, color := ⟨1, 1, 1, 1⟩,
                  boundingSurface := none, userData := none,
                  dynamicType := DynamicType.EPuck 0 0 },
                { pos := ⟨9, 9⟩, angle := 0, height := 5, r := 2, color := ⟨1, 1, 1, 1⟩,
                  boundingSurface := none, userData := none,
                  dynamicType := DynamicType.EPuck 1 2 } ] } =
          some (rt1,
            { w := 100, h := 50, useWalls := true, objects := out }) ∧
        countEPuckModels rt1.heap = 1 ∧
        rt1.viewer.managedObjects.getD OBJECT_EPUCK_MODEL none = some m := by
  obtain ⟨rt1, out, m, h1, h2, h3, _⟩ :=
    shared_resource_singleton (fun q : Point ℚ => q) (22 / 7) 640 480
      { viewer := ViewerWidget.ctor (22 / 7) 100 50, heap := [], nextList := 1,
        nextTexture := 1, calls := [] }
      { w := 100, h := 50, useWalls := true,
        objects :=
          [ { pos := ⟨0, 0⟩, angle := 0, height := 5, r := 2, color := ⟨1, 1, 1, 1⟩,
              boundingSurface := none, userData := none,
              dynamicType := DynamicType.EPuck 0 0 },
            { pos := ⟨9, 9⟩, angle := 0, height := 5, r := 2, color := ⟨1, 1, 1, 1⟩,
              boundingSurface := none, userData := none,
              dynamicType := DynamicType.EPuck 1 2 } ] }
      2 rfl
      (by
        intro o ho
        simp only [List.mem_cons, List.mem_singleton, List.not_mem_nil, or_false] at ho
        rcases ho with rfl | rfl <;> rfl)
      (by decide)
      ⟨_, List.mem_cons_self _ _, rfl⟩
  exact ⟨rt1, out, m, h1, h2, h3⟩

/-- C10: in a well-formed runtime and world (managedObjects and every bound
userData refer to objects of the heap that can draw their object), for two
distinct objects that are not E-pucks and start with a null userData, any
number k ≥ 1 of render passes succeeds and binds them to two different
SimpleDisplayList objects created during these passes, each flagged
deletedWithObject = true; neither is the object in managedObjects, and no
other object of the world is bound to either of them. -/
theorem exclusive_resource_uniqueness {α : Type} [LinearOrderedField α] [FloorRing α]
    (unitary : Point α → Point α) (M_PI : α) (width height : Int) (rt : Runtime α)
    (world : World α) (k : Nat) (i j : Nat) (oi oj : PhysicalObject α)
    (hs : slotOK rt = true) (hd : ∀ o ∈ world.objects, drawable rt.heap o = true)
    (hk : 1 ≤ k) (hij : i ≠ j)
    (hi : world.objects[i]? = some oi) (hj : world.objects[j]? = some oj)
    (hiu : oi.userData = none) (hie : oi.isEPuck = false)
    (hju : oj.userData = none) (hje : oj.isEPuck = false) :
    ∃ rt1 out a b la lb,
      paintGLTimes unitary M_PI width height k rt world =
          some (rt1, { world with objects := out }) ∧
        out[i]? = some { oi with userData := some a } ∧
        out[j]? = some { oj with userData := some b } ∧
        a ≠ b ∧
        rt.heap.length ≤ a ∧ rt.heap.length ≤ b ∧
        rt1.heap[a]? = some (ViewerUserData.SimpleDisplayList la true) ∧
        rt1.heap[b]? = some (ViewerUserData.SimpleDisplayList lb true) ∧
        rt1.viewer.managedObjects.getD OBJECT_EPUCK_MODEL none ≠ some a ∧
        rt1.viewer.managedObjects.getD OBJECT_EPUCK_MODEL none ≠ some b ∧
        (∀ (l : Nat) (o : PhysicalObject α), l ≠ i → out[l]? = some o → o.userData ≠ some a) ∧
        (∀ (l : Nat) (o : PhysicalObject α), l ≠ j → out[l]? = some o → o.userData ≠ some b) := by
  obtain ⟨rt1, out, hp, pf⟩ :=
    paintGLTimes_spec unitary M_PI width height rt world k hk hs hd
  obtain ⟨oi1, hi1⟩ := getElem?_of_length_eq world.objects out i oi pf.length_eq.symm hi
  obtain ⟨oj1, hj1⟩ := getElem?_of_length_eq world.objects out j oj pf.length_eq.symm hj
  obtain ⟨a, la, ha1, ha2, ha3⟩ := pf.simple i oi oi1 hi hi1 hiu hie
  obtain ⟨b, lb, hb1, hb2, hb3⟩ := pf.simple j oj oj1 hj hj1 hju hje
  have hsame_i := pf.same i oi oi1 hi hi1
  have hsame_j := pf.same j oj oj1 hj hj1
  rw [ha1] at hsame_i
  rw [hb1] at hsame_j
  have hab : a ≠ b := by
    intro hab
    rcases Nat.lt_or_gt_of_ne hij with hlt | hgt
    · exact pf.distinct i j oi oj oi1 oj1 hlt hi hj hi1 hj1 hiu hie hju hje
        (by rw [ha1, hb1, hab])
    · exact pf.distinct j i oj oi oj1 oi1 hgt hj hi hj1 hi1 hju hje hiu hie
        (by rw [ha1, hb1, hab])
  have hslot : ∀ (c lc : Nat),
      rt1.heap[c]? = some (ViewerUserData.SimpleDisplayList lc true) →
      epuckSlot rt1 ≠ some c := by
    intro c lc hc hm
    obtain ⟨u, hu1, hu2⟩ := ((slotOK_iff rt1).mp pf.slot_ok).2 c hm
    rw [hc] at hu1
    cases hu1
    exact Bool.noConfusion hu2
  have hother : ∀ (n c lc : Nat) (xn xn1 : PhysicalObject α),
      world.objects[n]? = some xn → out[n]? = some xn1 → xn.userData = none →
      xn.isEPuck = false → xn1.userData = some c → rt.heap.length ≤ c →
      rt1.heap[c]? = some (ViewerUserData.SimpleDisplayList lc true) →
      ∀ (l : Nat) (o : PhysicalObject α), l ≠ n → out[l]? = some o → o.userData ≠ some c := by
    intro n c lc xn xn1 hn hn1 hnu hne hc hcl hch l o hl ho hoc
    obtain ⟨ol, hol⟩ := getElem?_of_length_eq out world.objects l o pf.length_eq ho
    cases hu : ol.userData with
    | some q =>
      have e := pf.bound l ol o hol ho (by rw [hu]; exact Option.some_ne_none q)
      rw [e, hu] at hoc
      have hq : q = c := Option.some.inj hoc
      have hlt := drawable_lt rt.heap ol q (hd ol (List.getElem?_mem hol)) hu
      rw [hq] at hlt
      exact absurd hlt (Nat.not_lt.mpr hcl)
    | none =>
      cases he : ol.isEPuck with
      | true =>
        have e := pf.epuck l ol o hol ho hu he
        rw [hoc] at e
        exact hslot c lc hch e.symm
      | false =>
        rcases Nat.lt_or_gt_of_ne hl with hlt | hgt
        · exact pf.distinct l n ol xn o xn1 hlt hol hn ho hn1 hu he hnu hne
            (by rw [hoc, hc])
        · exact pf.distinct n l xn ol xn1 o hgt hn hol hn1 ho hnu hne hu he
            (by rw [hoc, hc])
  refine ⟨rt1, out, a, b, la, lb, hp, ?_, ?_, hab, ha2, hb2, ha3, hb3, hslot a la ha3,
    hslot b lb hb3, hother i a la oi oi1 hi hi1 hiu hie ha1 ha2 ha3,
    hother j b lb oj oj1 hj hj1 hju hje hb1 hb2 hb3⟩
  · rw [hi1, hsame_i]
  · rw [hj1, hsame_j]

/-- Instance of C10: two passes over a world of two unbound plain objects. -/
theorem exclusive_resource_uniqueness_witness :
    ∃ (rt1 : Runtime ℚ) (out : List (PhysicalObject ℚ)) (a b : Ptr),
      paintGLTimes (fun q : Point ℚ => q) (22 / 7) 640 480 2
          { viewer := ViewerWidget.ctor (22 / 7) 100 50, heap := [], nextList := 1,
            nextTexture := 1, calls := [] }
          { w := 100, h := 50, useWalls := true,
            objects :=
              [ { pos := ⟨0, 0⟩, angle := 0, height := 5, r := 2, color := ⟨1, 1, 1, 1⟩,
                  boundingSurface := none, userData := none,
                  dynamicType := DynamicType.PhysicalObject },
                { pos := ⟨9, 9⟩, angle := 0, height := 5, r := 2, color := ⟨1, 1, 1, 1⟩,
                  boundingSurface := some [⟨0, 0⟩, ⟨4, 0⟩, ⟨0, 3⟩], userData := none,
                  dynamicType := DynamicType.Robot } ] } =
          some (rt1, { w := 100, h := 50, useWalls := true, objects := out }) ∧
        (out[0]?).map (fun o => o.userData) = some (some a) ∧
        (out[1]?).map (fun o => o.userData) = some (some b) ∧ a ≠ b := by
  obtain ⟨rt1, out, a, b, la, lb, h1, h2, h3, h4, _⟩ :=
    exclusive_resource_uniqueness (fun q : Point ℚ => q) (22 / 7) 640 480
      { viewer := ViewerWidget.ctor (22 / 7) 100 50, heap := [], nextList := 1,
        nextTexture := 1, calls := [] }
      { w := 100, h := 50, useWalls := true,
        objects :=
          [ { pos := ⟨0, 0⟩, angle := 0, height := 5, r := 2, color := ⟨1, 1, 1, 1⟩,
              boundingSurface := none, userData := none,
              dynamicType := DynamicType.PhysicalObject },
            { pos := ⟨9, 9⟩, angle := 0, height := 5, r := 2, color := ⟨1, 1, 1, 1⟩,
              boundingSurface := some [⟨0, 0⟩, ⟨4, 0⟩, ⟨0, 3⟩], userData := none,
              dynamicType := DynamicType.Robot } ] }
      2 0 1 _ _
      (by simp [slotOK, epuckSlot, ViewerWidget.ctor, OBJECT_EPUCK_MODEL, MANAGED_OBJECT_COUNT])
      (by
        intro o ho
        simp only [List.mem_cons, List.mem_singleton, List.not_mem_nil, or_false] at ho
        rcases ho with rfl | rfl <;> rfl)
      (by decide) (by decide) rfl rfl rfl rfl rfl rfl
  exact ⟨rt1, out, a, b, h1, by rw [h2]; rfl, by rw [h3]; rfl, h4⟩

/-- C8 (failing input): after one render pass over a world with one E-puck the
E-puck model is in managedObjects; the destructor run with an invalid context
then skips the guarded deletion of the world list and texture but still
deletes the two textures and five display lists of the model. -/
theorem dtor_deletes_without_valid_context :
    (paintGL (fun q : Point ℚ => q) (22 / 7) 640 480
          { viewer := ViewerWidget.ctor (22 / 7) 100 50, heap := [], nextList := 1,
            nextTexture := 1, calls := [] }
          { w := 100, h := 50, useWalls := true,
            objects :=
              [ { pos := ⟨0, 0⟩, angle := 0, height := 5, r := 2, color := ⟨1, 1, 1, 1⟩,
                  boundingSurface := none, userData := none,
                  dynamicType := DynamicType.EPuck 0 0 } ] }).map
        (fun s => ((ViewerWidget.dtor false s.1 s.2).2.filter GLCall.isDeletion)) =
      some
        [ GLCall.deleteTexture 1, GLCall.deleteTexture 2, GLCall.glDeleteLists 1 1,
          GLCall.glDeleteLists 2 1, GLCall.glDeleteLists 3 1, GLCall.glDeleteLists 4 1,
          GLCall.glDeleteLists 5 1 ] := by
  rfl

end Enki
